import Mathlib

/-!
Verification of the IG1 tactical combat core (src/main.py)

Shallow embedding of the combat core of `src/main.py`: the grid map,
line-of-sight tracing, hit-chance computation, attack resolution, the
action economy (movement / overwatch), the reactive overwatch trigger
system, and the layered AI controller.  Python's mutable global state is
rendered as an explicit `GameState` record threaded through every
operation; the random rolls drawn by `random.randint` inside the combat
resolver are passed in as explicit oracle arguments, and console `print`
calls are rendered as appends to a `diagnostics` channel.
-/

namespace IG1

/-! ## Configuration constants (class Cfg, src/main.py [01]) -/

namespace Cfg

def BASE_HIT_CHANCE : Int := 75
def AP_COST_MOVE : Int := 1
def AP_COST_SHOOT : Int := 4
def AP_COST_OVERWATCH : Int := 3
def AP_COST_RELOAD : Int := 2

end Cfg

/-! ## Grid map

`g_current_map` is a rectangular list of rows of tile dicts; the code
reads `len(g_current_map)` (height), `len(g_current_map[0])` (width) and
the per-tile keys `blocks_sight`, `blocks_movement` and `cover` (with
`.get` defaults `False` / `False` / `0`).  We model the grid as total
functions from (row, column) indices. -/

structure GameMap where
  height : Nat
  width : Nat
  blocks_sight : Nat → Nat → Bool
  blocks_movement : Nat → Nat → Bool
  cover : Nat → Nat → Int

/-- The sight-blocking test performed inside `has_line_of_sight`:
`0 <= y < len(g_current_map) and 0 <= x < len(g_current_map[0])` and then
`g_current_map[y][x].get(K_BLOCKS_SIGHT, False)`.  Cells outside the map
never block. -/
def tile_blocks_sight (m : GameMap) (x y : Int) : Bool :=
  if 0 ≤ y ∧ y < (m.height : Int) ∧ 0 ≤ x ∧ x < (m.width : Int) then
    m.blocks_sight y.toNat x.toNat
  else
    false

/-- `is_valid_position(x, y)` (src/main.py [12]): in bounds and the tile is
not move-blocking. -/
def is_valid_position (m : GameMap) (x y : Int) : Bool :=
  if 0 ≤ y ∧ y < (m.height : Int) ∧ 0 ≤ x ∧ x < (m.width : Int) then
    !(m.blocks_movement y.toNat x.toNat)
  else
    false

/-! ## Bresenham line stepping (`has_line_of_sight`, src/main.py [11])

The Python loop body computes `e2 = 2 * err` once, then advances `x`
(updating `err -= dy`) when `e2 > -dy` and advances `y` (updating
`err += dx`) when `e2 < dx`.  `losStep` is that loop body; the loop
itself is given explicit fuel, and `losLoop_isSome` below proves the
default fuel always suffices, so the `Option` never hides divergence. -/

def losStep (dx dy sx sy : Int) (x y err : Int) : Int × Int × Int :=
  let e2 := 2 * err
  let p := if -dy < e2 then (err - dy, x + sx) else (err, x)
  let q := if e2 < dx then (p.1 + dx, y + sy) else (p.1, y)
  (p.2, q.2, q.1)

/-- The `while True` loop of `has_line_of_sight`: at each visited cell,
return `false` if the cell blocks sight and is neither endpoint; break
with `true` on reaching the destination; otherwise advance by `losStep`.
`none` means the fuel ran out (proved impossible for the fuel used by
`los_run`). -/
def losLoop (m : GameMap) (x0 y0 x1 y1 sx sy dx dy : Int) :
    Nat → Int → Int → Int → Option Bool
  | 0, _, _, _ => none
  | fuel + 1, x, y, err =>
    if tile_blocks_sight m x y ∧ ¬((x, y) = (x0, y0)) ∧ ¬((x, y) = (x1, y1)) then
      some false
    else if x = x1 ∧ y = y1 then
      some true
    else
      losLoop m x0 y0 x1 y1 sx sy dx dy fuel
        (losStep dx dy sx sy x y err).1
        (losStep dx dy sx sy x y err).2.1
        (losStep dx dy sx sy x y err).2.2

/-- The same stepping, recording the full `points` sequence the loop
traverses (the `points` list of the source) instead of testing blockers. -/
def losTrace (x1 y1 dx dy sx sy : Int) :
    Nat → Int → Int → Int → Option (List (Int × Int))
  | 0, _, _, _ => none
  | fuel + 1, x, y, err =>
    if x = x1 ∧ y = y1 then
      some [(x, y)]
    else
      (losTrace x1 y1 dx dy sx sy fuel
        (losStep dx dy sx sy x y err).1
        (losStep dx dy sx sy x y err).2.1
        (losStep dx dy sx sy x y err).2.2).map (fun pts => (x, y) :: pts)

def losInitSx (x0 x1 : Int) : Int := if x0 < x1 then 1 else -1

def losInitSy (y0 y1 : Int) : Int := if y0 < y1 then 1 else -1

def losFuel (x0 y0 x1 y1 : Int) : Nat :=
  (x1 - x0).natAbs + (y1 - y0).natAbs + 1

/-- `has_line_of_sight` with its `Option` fuel wrapper still visible. -/
def los_run (m : GameMap) (x0 y0 x1 y1 : Int) : Option Bool :=
  losLoop m x0 y0 x1 y1 (losInitSx x0 x1) (losInitSy y0 y1)
    ((x1 - x0).natAbs : Int) ((y1 - y0).natAbs : Int)
    (losFuel x0 y0 x1 y1) x0 y0 (((x1 - x0).natAbs : Int) - ((y1 - y0).natAbs : Int))

/-- `has_line_of_sight(x0, y0, x1, y1)` (src/main.py [11]).  The `getD`
default is never consulted: `los_run_isSome` proves the loop always
reaches its destination within the allotted fuel. -/
def has_line_of_sight (m : GameMap) (x0 y0 x1 y1 : Int) : Bool :=
  (los_run m x0 y0 x1 y1).getD false

/-- The full cell sequence traced by the Bresenham stepping from
`(x0, y0)` to `(x1, y1)`, endpoints included. -/
def bresenham_points (x0 y0 x1 y1 : Int) : List (Int × Int) :=
  (losTrace x1 y1 ((x1 - x0).natAbs : Int) ((y1 - y0).natAbs : Int)
      (losInitSx x0 x1) (losInitSy y0 y1)
      (losFuel x0 y0 x1 y1) x0 y0
      (((x1 - x0).natAbs : Int) - ((y1 - y0).natAbs : Int))).getD []

/-- A traversed cell makes `has_line_of_sight` fail exactly when it is in
bounds, its `blocks_sight` flag is set, and it is neither the source nor
the destination cell. -/
def cell_blocks_strictly (m : GameMap) (x0 y0 x1 y1 : Int) (p : Int × Int) : Bool :=
  tile_blocks_sight m p.1 p.2 && decide (p ≠ (x0, y0)) && decide (p ≠ (x1, y1))

/-! ### Debug-line side channel

When `g_game_state['ui_state']['debug_overlay']` is on, the source
appends the traced `points` and an outcome colour to `g_debug_lines`.
`losLoopD` is the loop with that side channel modelled; the debug buffer
occupies the second component and is proved not to influence the first. -/

structure DebugLine where
  points : List (Int × Int)
  color : Int × Int × Int
  lifetime : Nat

def losLoopD (m : GameMap) (overlay : Bool) (x0 y0 x1 y1 sx sy dx dy : Int) :
    Nat → Int → Int → Int → List (Int × Int) → List DebugLine →
    Option (Bool × List DebugLine)
  | 0, _, _, _, _, _ => none
  | fuel + 1, x, y, err, pts, dbg =>
    let pts1 := pts ++ [(x, y)]
    if tile_blocks_sight m x y ∧ ¬((x, y) = (x0, y0)) ∧ ¬((x, y) = (x1, y1)) then
      some (false, if overlay then dbg ++ [⟨pts1, (255, 0, 0), 60⟩] else dbg)
    else if x = x1 ∧ y = y1 then
      some (true, if overlay then dbg ++ [⟨pts1, (0, 255, 0), 60⟩] else dbg)
    else
      losLoopD m overlay x0 y0 x1 y1 sx sy dx dy fuel
        (losStep dx dy sx sy x y err).1
        (losStep dx dy sx sy x y err).2.1
        (losStep dx dy sx sy x y err).2.2 pts1 dbg

/-- `has_line_of_sight` with the debug side channel: the traced points and
the outcome colour are appended to the debug-line buffer when `overlay`
is set. -/
def has_line_of_sight_debug (m : GameMap) (overlay : Bool) (x0 y0 x1 y1 : Int) :
    Option (Bool × List DebugLine) :=
  losLoopD m overlay x0 y0 x1 y1 (losInitSx x0 x1) (losInitSy y0 y1)
    ((x1 - x0).natAbs : Int) ((y1 - y0).natAbs : Int)
    (losFuel x0 y0 x1 y1) x0 y0
    (((x1 - x0).natAbs : Int) - ((y1 - y0).natAbs : Int)) [] []

/-! ## Units and game state (src/main.py [02], [03], [05])

Characters are Python dicts with the keys listed in section [02]; the
fields used by the combat core are modelled here.  `faction` is the
source's `'player'` / `'enemy'` string. -/

structure Attributes where
  marksmanship : Int
  agility : Int
  dexterity : Int
  strength : Int
  wisdom : Int
deriving DecidableEq

structure Unit where
  id : String
  name : String
  x : Int
  y : Int
  health : Int
  max_health : Int
  ap : Int
  max_ap : Int
  faction : String
  status_effects : List String
  current_ammo : Int
  max_ammo : Int
  attributes : Attributes
deriving DecidableEq

/-- A visual effect as produced by `create_effect` (src/main.py [06]); of
the `kwargs` payload only the fields the combat core supplies are kept. -/
structure Effect where
  etype : String
  x : Int
  y : Int
  text : String
  duration : Nat
deriving DecidableEq

def create_effect (etype : String) (x y : Int) (text : String) (duration : Nat) : Effect :=
  { etype := etype, x := x, y := y, text := text, duration := duration }

/-- The mutable global state of section [03] that the combat core touches:
the two unit collections, the map, the combat log, the effect queue, the
error log (`g_error_log`), a `diagnostics` channel standing for console
`print` output, and the active-unit reference. -/
structure GameState where
  player_squad : List Unit
  enemy_units : List Unit
  map : GameMap
  combat_log : List String
  effect_queue : List Effect
  error_log : List String
  diagnostics : List String
  active_unit_id : Option String

def add_log (s : GameState) (msg : String) : GameState :=
  { s with combat_log := s.combat_log ++ [msg] }

def add_effect (s : GameState) (e : Effect) : GameState :=
  { s with effect_queue := s.effect_queue ++ [e] }

/-- `log_error` (src/main.py [04]): append to `g_error_log` and print. -/
def log_error (s : GameState) (msg : String) : GameState :=
  { s with error_log := s.error_log ++ ["[ERROR] " ++ msg],
           diagnostics := s.diagnostics ++ ["[ERROR] " ++ msg] }

def print_diag (s : GameState) (msg : String) : GameState :=
  { s with diagnostics := s.diagnostics ++ [msg] }

/-- `find_unit_by_id` (src/main.py [12]): first match scanning the player
squad and then the enemy units. -/
def find_unit_by_id (s : GameState) (unit_id : String) : Option Unit :=
  (s.player_squad ++ s.enemy_units).find? (fun u => u.id == unit_id)

/-- Replace the first unit carrying `unit_id` by its image under `f`.
This renders Python's in-place mutation of the dict returned by
`find_unit_by_id`. -/
def updateFirst (unit_id : String) (f : Unit → Unit) : List Unit → List Unit
  | [] => []
  | u :: rest => if u.id = unit_id then f u :: rest else u :: updateFirst unit_id f rest

def contains_id (unit_id : String) (l : List Unit) : Bool :=
  l.any (fun u => u.id == unit_id)

/-- Apply `f` to the unit `find_unit_by_id` would return: the first
id-match in the player squad if there is one, otherwise the first
id-match among the enemy units. -/
def update_unit (s : GameState) (unit_id : String) (f : Unit → Unit) : GameState :=
  if contains_id unit_id s.player_squad then
    { s with player_squad := updateFirst unit_id f s.player_squad }
  else
    { s with enemy_units := updateFirst unit_id f s.enemy_units }

/-! ## Combat resolver (src/main.py [11]) -/

/-- Largest `j ≤ k` with `j * j ≤ n` (and `0` if none): a structurally
recursive integer square root, proved equal to `Nat.sqrt` below. -/
def sqrtCountdown (n : Nat) : Nat → Nat
  | 0 => 0
  | k + 1 => if (k + 1) * (k + 1) ≤ n then k + 1 else sqrtCountdown n k

/-- `⌊√n⌋`. -/
def floorSqrt (n : Nat) : Nat := sqrtCountdown n n

/-- The distance penalty `int(distance * 3)` where
`distance = math.sqrt((ax - tx)**2 + (ay - ty)**2)`: truncating
`3 * sqrt(d2)` for nonnegative `d2` is the floor, and
`⌊3 * sqrt(d2)⌋ = ⌊sqrt(9 * d2)⌋ = floorSqrt (9 * d2)`. -/
def distance_penalty (attacker target : Unit) : Int :=
  (floorSqrt (9 * ((attacker.x - target.x).natAbs ^ 2 +
    (attacker.y - target.y).natAbs ^ 2)) : Nat)

/-- `calculate_hit_chance(attacker, target)` (src/main.py [11]): a pure
function of the two units and the map.  Python's floor division `//` is
`Int.fdiv`.  The target's tile is read as `g_current_map[y][x]`; units
are kept at in-bounds grid coordinates by the movement layer, so the
`toNat` index coercion is exact there. -/
def calculate_hit_chance (m : GameMap) (attacker target : Unit) : Int :=
  let base_chance := Cfg.BASE_HIT_CHANCE + Int.fdiv (attacker.attributes.marksmanship - 70) 2
  let cover_bonus := m.cover target.y.toNat target.x.toNat
  let final_chance := base_chance - distance_penalty attacker target - cover_bonus
  let dodge_bonus := Int.fdiv (target.attributes.agility - 60) 4
  max 5 (min 95 (final_chance - dodge_bonus))

/-- `handle_unit_death(unit)` (src/main.py [11]): log, death effect,
remove the unit from its faction's collection (guarded by membership, as
in `if unit in g_player_squad: g_player_squad.remove(unit)`), and repair
the active-unit reference. -/
def handle_unit_death (s : GameState) (u : Unit) : GameState :=
  let s1 := add_log s (u.name ++ " has been killed!")
  let s2 := add_effect s1 (create_effect "death" u.x u.y "" 60)
  let s3 :=
    if u.faction = "player" then
      if u ∈ s2.player_squad then
        print_diag { s2 with player_squad := s2.player_squad.erase u }
          ("[COMBAT] Player unit " ++ u.name ++ " eliminated!")
      else s2
    else
      if u ∈ s2.enemy_units then
        print_diag { s2 with enemy_units := s2.enemy_units.erase u }
          ("[COMBAT] Enemy unit " ++ u.name ++ " eliminated!")
      else s2
  { s3 with active_unit_id :=
      if s3.active_unit_id = some u.id then
        match s3.player_squad with
        | [] => none
        | first :: _ => some first.id
      else s3.active_unit_id }

/-- `execute_attack(attacker_id, target_id)` (src/main.py [11]).  The two
`random.randint` draws are passed in: `roll` is the to-hit roll from
`[1, 100]` and `dmg_jitter` the damage jitter from `[-5, 5]`.  Ordering
follows the source: find both units, check ammo, check line of sight,
decrement ammo, resolve hit or miss, then append the ammo-status line.
The source computes the hit chance after the ammo decrement from the
live dicts; since `calculate_hit_chance` reads only positions, attributes
and the map, computing it from the records matched before the decrement
is the same value. -/
def execute_attack (roll dmg_jitter : Int) (attacker_id target_id : String)
    (s : GameState) : GameState :=
  match find_unit_by_id s attacker_id, find_unit_by_id s target_id with
  | some attacker, some target =>
    if attacker.current_ammo ≤ 0 then
      add_effect (add_log s (attacker.name ++ " is out of ammo!"))
        (create_effect "text" attacker.x attacker.y "OUT OF AMMO" 45)
    else if ¬(has_line_of_sight s.map attacker.x attacker.y target.x target.y = true) then
      add_log s "No line of sight to target"
    else
      let s1 := update_unit s attacker_id
        (fun u => { u with current_ammo := u.current_ammo - 1 })
      let hit_chance := calculate_hit_chance s.map attacker target
      let s5 :=
        if roll ≤ hit_chance then
          let skill_bonus := Int.fdiv (attacker.attributes.marksmanship - 70) 5
          let damage := max 15 (25 + skill_bonus + dmg_jitter)
          let old_hp := target.health
          let new_hp := max 0 (old_hp - damage)
          let actual_damage := old_hp - new_hp
          let s2 := update_unit s1 target_id
            (fun u => { u with health := max 0 (u.health - damage) })
          let s3 := add_log s2 (attacker.name ++ " hit " ++ target.name ++ " for " ++
            toString actual_damage ++ " damage (" ++ toString hit_chance ++
            "% chance, rolled " ++ toString roll ++ ")")
          let s4 := add_effect s3
            (create_effect "damage_text" target.x target.y (toString actual_damage) 45)
          if new_hp ≤ 0 then
            match find_unit_by_id s2 target_id with
            | some live_target => handle_unit_death s4 live_target
            | none => s4
          else s4
        else
          add_effect (add_log s1 (attacker.name ++ " missed " ++ target.name ++ " (" ++
            toString hit_chance ++ "% chance, rolled " ++ toString roll ++ ")"))
            (create_effect "text" target.x target.y "MISS" 30)
      add_log s5 (attacker.name ++ " ammo: (" ++ toString (attacker.current_ammo - 1) ++
        "/" ++ toString attacker.max_ammo ++ ")")
  | _, _ =>
    log_error s ("Could not find attacker " ++ attacker_id ++ " or target " ++ target_id)

/-! ## Action economy and reactive triggers (src/main.py [08], [11], [12]) -/

/-- The Manhattan distance used by `can_reach_position` and `move_unit`:
`abs(unit.x - x) + abs(unit.y - y)`. -/
def manhattan_distance (u : Unit) (x y : Int) : Int :=
  ((u.x - x).natAbs : Int) + ((u.y - y).natAbs : Int)

/-- `can_reach_position(unit, x, y)` (src/main.py [12]). -/
def can_reach_position (u : Unit) (x y : Int) : Bool :=
  decide (manhattan_distance u x y * Cfg.AP_COST_MOVE ≤ u.ap)

/-- `is_position_occupied(x, y)` (src/main.py [08]): some living unit of
either faction sits at the position. -/
def is_position_occupied (s : GameState) (x y : Int) : Bool :=
  (s.player_squad ++ s.enemy_units).any
    (fun u => decide (0 < u.health) && u.x == x && u.y == y)

/-- The `for watcher in watching_units` loop of `check_overwatch_triggers`
(src/main.py [08]): scan the opposing units in order; the first watcher
that is alive, holds overwatch, sees the mover's new position and did not
see the old position fires one attack, loses its overwatch status, and
the loop `break`s.  The scan walks the list captured at entry; the source
iterates the live list, but no mutation occurs before the single firing
iteration, which ends the loop. -/
def overwatch_scan (roll dmg_jitter : Int) (moved : Unit) (old_x old_y : Int) :
    List Unit → GameState → GameState
  | [], s => s
  | w :: rest, s =>
    if "overwatch" ∈ w.status_effects ∧ 0 < w.health then
      if has_line_of_sight s.map w.x w.y moved.x moved.y then
        if has_line_of_sight s.map w.x w.y old_x old_y then
          overwatch_scan roll dmg_jitter moved old_x old_y rest s
        else
          let s1 := add_log s (w.name ++ " fires overwatch at " ++ moved.name ++ "!")
          let s2 := execute_attack roll dmg_jitter w.id moved.id s1
          update_unit s2 w.id
            (fun v => { v with status_effects := v.status_effects.erase "overwatch" })
      else overwatch_scan roll dmg_jitter moved old_x old_y rest s
    else overwatch_scan roll dmg_jitter moved old_x old_y rest s

/-- `check_overwatch_triggers(moved_unit, old_x, old_y)` (src/main.py [08]). -/
def check_overwatch_triggers (roll dmg_jitter : Int) (moved : Unit) (old_x old_y : Int)
    (s : GameState) : GameState :=
  let watching_units := if moved.faction = "player" then s.enemy_units else s.player_squad
  overwatch_scan roll dmg_jitter moved old_x old_y watching_units s

/-- `move_unit(unit_id, new_x, new_y)` (src/main.py [12]): no-op when the
id cannot be resolved or the Manhattan-distance AP cost exceeds the
unit's AP; otherwise update position, deduct the cost, and run the
overwatch trigger check against the prior position.  The moved unit
passed to the trigger check carries its updated position, as in the
source where the live dict is passed. -/
def move_unit (roll dmg_jitter : Int) (unit_id : String) (new_x new_y : Int)
    (s : GameState) : GameState :=
  match find_unit_by_id s unit_id with
  | none => s
  | some u =>
    let ap_cost := manhattan_distance u new_x new_y * Cfg.AP_COST_MOVE
    if ap_cost ≤ u.ap then
      let s1 := update_unit s unit_id
        (fun v => { v with x := new_x, y := new_y, ap := v.ap - ap_cost })
      check_overwatch_triggers roll dmg_jitter
        { u with x := new_x, y := new_y, ap := u.ap - ap_cost } u.x u.y s1
    else s

/-- `activate_overwatch(unit_id)` (src/main.py [11]): silently no-op
without enough AP; otherwise deduct the cost, add the status flag if not
already present, and log. -/
def activate_overwatch (unit_id : String) (s : GameState) : GameState :=
  match find_unit_by_id s unit_id with
  | none => s
  | some u =>
    if Cfg.AP_COST_OVERWATCH ≤ u.ap then
      let s1 := update_unit s unit_id (fun v =>
        { v with ap := v.ap - Cfg.AP_COST_OVERWATCH,
                 status_effects :=
                   if "overwatch" ∈ v.status_effects then v.status_effects
                   else v.status_effects ++ ["overwatch"] })
      add_log s1 (u.name ++ " is on overwatch")
    else s

/-! ## Input command surface (src/main.py [08]) -/

/-- `handle_tile_click(x, y)` (src/main.py [08]): clicking a player unit
selects it; otherwise, with an active unit, a valid and unoccupied
destination is moved to when reachable (else a cannot-reach diagnostic);
an occupied destination prints an occupied diagnostic; an invalid and
unoccupied destination falls through silently. -/
def handle_tile_click (roll dmg_jitter : Int) (x y : Int) (s : GameState) : GameState :=
  match s.player_squad.find? (fun u => u.x == x && u.y == y) with
  | some clicked =>
    print_diag { s with active_unit_id := some clicked.id }
      ("[INPUT] Selected " ++ clicked.name)
  | none =>
    match s.active_unit_id with
    | none => s
    | some active_id =>
      match find_unit_by_id s active_id with
      | some active =>
        if is_valid_position s.map x y && !(is_position_occupied s x y) then
          if can_reach_position active x y then
            print_diag (move_unit roll dmg_jitter active_id x y s)
              ("[INPUT] Moved " ++ active.name ++ " to (" ++ toString x ++ ", " ++
                toString y ++ ")")
          else
            print_diag s ("[INPUT] Cannot reach (" ++ toString x ++ ", " ++ toString y ++
              ") - not enough AP")
        else if is_position_occupied s x y then
          print_diag s ("[INPUT] Position (" ++ toString x ++ ", " ++ toString y ++
            ") is occupied")
        else s
      | none =>
        if is_position_occupied s x y then
          print_diag s ("[INPUT] Position (" ++ toString x ++ ", " ++ toString y ++
            ") is occupied")
        else s

/-! ## AI controller (src/main.py [08])

The scoring in `ai_try_attack_visible_enemy` mixes an integer hit chance
with the float `(max_hp - hp) / max_hp`; those Python floats are
modelled as rationals.  The float distance comparisons in
`ai_try_take_cover` / `ai_try_move_to_enemy` compare square roots of
integers, which is equivalent to comparing the squared distances. -/

/-- The target score `hit_chance + ((max_hp - hp) / max_hp) * 30`. -/
def ai_score (m : GameMap) (unit p : Unit) : ℚ :=
  (calculate_hit_chance m unit p : ℚ) +
    (((p.max_health : ℚ) - (p.health : ℚ)) / (p.max_health : ℚ)) * 30

/-- The target-selection loop of `ai_try_attack_visible_enemy`: fold over
the player squad keeping `best_target` / `best_score`, starting from
`(None, 0)` and updating on a strict score improvement (`score > best_score`). -/
def ai_pick_target (m : GameMap) (unit : Unit) :
    List Unit → Option Unit × ℚ → Option Unit × ℚ
  | [], best => best
  | p :: rest, (bt, bs) =>
    if p.health ≤ 0 then ai_pick_target m unit rest (bt, bs)
    else if has_line_of_sight m unit.x unit.y p.x p.y then
      if bs < ai_score m unit p then ai_pick_target m unit rest (some p, ai_score m unit p)
      else ai_pick_target m unit rest (bt, bs)
    else ai_pick_target m unit rest (bt, bs)

/-- `ai_try_attack_visible_enemy(unit)` (src/main.py [08]): returns
whether an attack was committed, together with the updated state. -/
def ai_try_attack_visible_enemy (roll dmg_jitter : Int) (unit : Unit) (s : GameState) :
    Bool × GameState :=
  if unit.ap < Cfg.AP_COST_SHOOT then (false, s)
  else
    match ai_pick_target s.map unit s.player_squad (none, 0) with
    | (some best_target, best_score) =>
      if 40 < best_score then
        let s1 := execute_attack roll dmg_jitter unit.id best_target.id s
        (true, update_unit s1 unit.id (fun v => { v with ap := v.ap - Cfg.AP_COST_SHOOT }))
      else (false, s)
    | (none, _) => (false, s)

/-- The offsets `-4 .. 4` of the cover scan, in iteration order. -/
def cover_offsets : List Int := [-4, -3, -2, -1, 0, 1, 2, 3, 4]

/-- One candidate step of the cover scan of `ai_try_take_cover`.  The
accumulator is `(best_cover_pos, best_cover_value, best_distance)`;
`best_distance` starts at the sentinel `9`, which exceeds every candidate
Manhattan distance (at most `8`), rendering Python's `float('inf')`. -/
def cover_scan_step (s : GameState) (u : Unit)
    (best : Option (Int × Int) × Int × Int) (d : Int × Int) :
    Option (Int × Int) × Int × Int :=
  let new_x := u.x + d.1
  let new_y := u.y + d.2
  if ¬(is_valid_position s.map new_x new_y = true) then best
  else if is_position_occupied s new_x new_y then best
  else
    let cover_value := s.map.cover new_y.toNat new_x.toNat
    let distance := ((d.1.natAbs : Int)) + ((d.2.natAbs : Int))
    if best.2.1 < cover_value ∨ (cover_value = best.2.1 ∧ distance < best.2.2) then
      if can_reach_position u new_x new_y then (some (new_x, new_y), cover_value, distance)
      else best
    else best

/-- `ai_try_take_cover(unit)` (src/main.py [08]).  A cover move runs the
overwatch trigger check twice: once inside `move_unit` and once more
explicitly (`roll2` / `dmg_jitter2` feed the second check's potential
shot).  The `getD` fallback for the moved unit is only reachable when the
first reactive shot removed the mover from its collection, in which case
the live dict holds the new position, the deducted AP, and zero health. -/
def ai_try_take_cover (roll1 dmg_jitter1 roll2 dmg_jitter2 : Int) (u : Unit)
    (s : GameState) : Bool × GameState :=
  let current_cover := s.map.cover u.y.toNat u.x.toNat
  if 50 ≤ current_cover ∨ u.ap < Cfg.AP_COST_MOVE * 2 then (false, s)
  else
    let candidates := cover_offsets.flatMap (fun dy => cover_offsets.map (fun dx => (dx, dy)))
    let best := candidates.foldl (cover_scan_step s u) (none, current_cover, 9)
    match best.1 with
    | some pos =>
      if current_cover + 20 < best.2.1 then
        let s1 := move_unit roll1 dmg_jitter1 u.id pos.1 pos.2 s
        let s2 := print_diag s1 ("[AI] " ++ u.name ++ " moved to cover at (" ++
          toString pos.1 ++ ", " ++ toString pos.2 ++ ")")
        let moved := (find_unit_by_id s2 u.id).getD
          { u with x := pos.1, y := pos.2,
                   ap := u.ap - manhattan_distance u pos.1 pos.2 * Cfg.AP_COST_MOVE,
                   health := 0 }
        (true, check_overwatch_triggers roll2 dmg_jitter2 moved u.x u.y s2)
      else (false, s)
    | none => (false, s)

/-- The nearest-player fold of `find_nearest_player` (src/main.py [12]):
compare squared Euclidean distances (the source compares their square
roots, which orders identically), with `none` standing for the initial
`float('inf')`. -/
def nearest_player_fold (u : Unit) : List Unit → Option (Unit × Int) → Option (Unit × Int)
  | [], best => best
  | p :: rest, best =>
    if p.health ≤ 0 then nearest_player_fold u rest best
    else
      let d2 := (p.x - u.x) ^ 2 + (p.y - u.y) ^ 2
      match best with
      | none => nearest_player_fold u rest (some (p, d2))
      | some (q, bd2) =>
        if d2 < bd2 then nearest_player_fold u rest (some (p, d2))
        else nearest_player_fold u rest (some (q, bd2))

def find_nearest_player (s : GameState) (u : Unit) : Option Unit :=
  (nearest_player_fold u s.player_squad none).map Prod.fst

/-- The neighbour offsets `(dx, dy)` visited by `ai_try_move_to_enemy`,
in iteration order with `(0, 0)` skipped. -/
def neighbour_offsets : List (Int × Int) :=
  [(-1, -1), (0, -1), (1, -1), (-1, 0), (1, 0), (-1, 1), (0, 1), (1, 1)]

/-- `ai_try_move_to_enemy(unit)` (src/main.py [08]).  Distance guards and
the best-neighbour fold compare squared Euclidean distances; like
`ai_try_take_cover`, a committed move runs the overwatch check twice. -/
def ai_try_move_to_enemy (roll1 dmg_jitter1 roll2 dmg_jitter2 : Int) (u : Unit)
    (s : GameState) : Bool × GameState :=
  if u.ap < Cfg.AP_COST_MOVE then (false, s)
  else
    match find_nearest_player s u with
    | none => (false, s)
    | some nearest =>
      let d2 := (u.x - nearest.x) ^ 2 + (u.y - nearest.y) ^ 2
      if d2 ≤ 64 then (false, s)
      else
        let step := fun (best : Option (Int × Int) × Int) (d : Int × Int) =>
          let new_x := u.x + d.1
          let new_y := u.y + d.2
          if ¬(is_valid_position s.map new_x new_y = true) then best
          else if is_position_occupied s new_x new_y then best
          else
            let nd2 := (new_x - nearest.x) ^ 2 + (new_y - nearest.y) ^ 2
            if nd2 < best.2 then (some (new_x, new_y), nd2) else best
        let best := neighbour_offsets.foldl step (none, d2)
        match best.1 with
        | some pos =>
          if Cfg.AP_COST_MOVE ≤ u.ap then
            let s1 := move_unit roll1 dmg_jitter1 u.id pos.1 pos.2 s
            let s2 := print_diag s1 ("[AI] " ++ u.name ++ " advanced toward enemy to (" ++
              toString pos.1 ++ ", " ++ toString pos.2 ++ ")")
            let moved := (find_unit_by_id s2 u.id).getD
              { u with x := pos.1, y := pos.2,
                       ap := u.ap - manhattan_distance u pos.1 pos.2 * Cfg.AP_COST_MOVE,
                       health := 0 }
            (true, check_overwatch_triggers roll2 dmg_jitter2 moved u.x u.y s2)
          else (false, s)
        | none => (false, s)

/-- `ai_take_turn(unit)` (src/main.py [08]): the strict priority chain
attack → take cover → advance → overwatch fallback, ending with the
unit's AP forced to zero on the fallback layers. -/
def ai_take_turn (roll1 dmg_jitter1 roll2 dmg_jitter2 : Int) (u : Unit)
    (s : GameState) : GameState :=
  let s0 := print_diag s ("[AI] " ++ u.name ++ " taking turn (AP: " ++ toString u.ap ++ ")")
  let a := ai_try_attack_visible_enemy roll1 dmg_jitter1 u s0
  if a.1 then a.2
  else
    let c := ai_try_take_cover roll1 dmg_jitter1 roll2 dmg_jitter2 u a.2
    if c.1 then c.2
    else
      let mv := ai_try_move_to_enemy roll1 dmg_jitter1 roll2 dmg_jitter2 u c.2
      if mv.1 then mv.2
      else
        if Cfg.AP_COST_OVERWATCH ≤ u.ap then
          update_unit (activate_overwatch u.id mv.2) u.id (fun v => { v with ap := 0 })
        else
          update_unit mv.2 u.id (fun v => { v with ap := 0 })

/-! ## Specification-side definitions

These restate spec §4.5 in the spec's own words, for comparison against
the embedded `check_overwatch_triggers`. -/

/-- Spec §4.5: a watcher qualifies when it is a living holder of the
overwatch status with line of sight to the mover's new position but not
to its old position. -/
def overwatch_qualifies (m : GameMap) (moved : Unit) (old_x old_y : Int) (w : Unit) : Bool :=
  decide ("overwatch" ∈ w.status_effects) && decide (0 < w.health) &&
    has_line_of_sight m w.x w.y moved.x moved.y &&
    !(has_line_of_sight m w.x w.y old_x old_y)

/-- Spec §4.5 as a whole: the first qualifying watcher of the opposing
faction (and only it) fires one attack at the mover via the combat
resolver and loses its overwatch status. -/
def check_overwatch_spec (roll dmg_jitter : Int) (moved : Unit) (old_x old_y : Int)
    (s : GameState) : GameState :=
  let watching_units := if moved.faction = "player" then s.enemy_units else s.player_squad
  match watching_units.find? (overwatch_qualifies s.map moved old_x old_y) with
  | none => s
  | some w =>
    update_unit
      (execute_attack roll dmg_jitter w.id moved.id
        (add_log s (w.name ++ " fires overwatch at " ++ moved.name ++ "!")))
      w.id (fun v => { v with status_effects := v.status_effects.erase "overwatch" })

/-! ## Observables -/

def ammo_of (s : GameState) (uid : String) : Option Int :=
  (find_unit_by_id s uid).map (fun u => u.current_ammo)

def ap_of (s : GameState) (uid : String) : Option Int :=
  (find_unit_by_id s uid).map (fun u => u.ap)

/-- The attack resolver's preconditions beyond id resolution: positive
ammo and line of sight. -/
def attack_preconditions (s : GameState) (attacker_id target_id : String) : Prop :=
  ∃ a t, find_unit_by_id s attacker_id = some a ∧ find_unit_by_id s target_id = some t ∧
    0 < a.current_ammo ∧ has_line_of_sight s.map a.x a.y t.x t.y = true

/-! ## Concrete fixtures for witnesses and counterexamples -/

def exAttrs : Attributes :=
  { marksmanship := 70, agility := 60, dexterity := 50, strength := 50, wisdom := 50 }

/-- A 10×10 map with no walls and no cover. -/
def openMap : GameMap :=
  { height := 10, width := 10,
    blocks_sight := fun _ _ => false,
    blocks_movement := fun _ _ => false,
    cover := fun _ _ => 0 }

/-- A 1×8 corridor: a sight-blocking wall on column 1, cover 40 on
column 2, everything walkable. -/
def wallMap : GameMap :=
  { height := 1, width := 8,
    blocks_sight := fun _ x => x == 1,
    blocks_movement := fun _ _ => false,
    cover := fun _ x => if x == 2 then 40 else 0 }

def exC1Enemy : Unit :=
  { id := "e1", name := "Grunt", x := 0, y := 0, health := 100, max_health := 100,
    ap := 10, max_ap := 10, faction := "enemy", status_effects := [],
    current_ammo := 5, max_ammo := 5, attributes := exAttrs }

def exC1W1 : Unit :=
  { id := "w1", name := "Alpha", x := 6, y := 0, health := 100, max_health := 100,
    ap := 4, max_ap := 10, faction := "player", status_effects := ["overwatch"],
    current_ammo := 5, max_ammo := 5, attributes := exAttrs }

def exC1W2 : Unit :=
  { id := "w2", name := "Bravo", x := 7, y := 0, health := 100, max_health := 100,
    ap := 4, max_ap := 10, faction := "player", status_effects := ["overwatch"],
    current_ammo := 5, max_ammo := 5, attributes := exAttrs }

/-- Two overwatching player units behind a wall relative to the enemy's
start tile, both with sight of the cover tile the enemy AI will pick. -/
def exC1State : GameState :=
  { player_squad := [exC1W1, exC1W2], enemy_units := [exC1Enemy], map := wallMap,
    combat_log := [], effect_queue := [], error_log := [], diagnostics := [],
    active_unit_id := none }

def exShooter : Unit :=
  { id := "s1", name := "Shooter", x := 3, y := 3, health := 100, max_health := 100,
    ap := 10, max_ap := 10, faction := "player", status_effects := [],
    current_ammo := 5, max_ammo := 5, attributes := exAttrs }

def exTargetC2 : Unit :=
  { id := "t1", name := "Mark", x := 3, y := 3, health := 100, max_health := 100,
    ap := 10, max_ap := 10, faction := "enemy", status_effects := [],
    current_ammo := 5, max_ammo := 5, attributes := exAttrs }

def exC3Attacker : Unit :=
  { id := "a1", name := "Ash", x := 0, y := 0, health := 100, max_health := 100,
    ap := 10, max_ap := 10, faction := "player", status_effects := [],
    current_ammo := 5, max_ammo := 5, attributes := exAttrs }

def exC3Target : Unit :=
  { id := "b1", name := "Bog", x := 2, y := 0, health := 100, max_health := 100,
    ap := 10, max_ap := 10, faction := "enemy", status_effects := [],
    current_ammo := 5, max_ammo := 5, attributes := exAttrs }

def exC3State : GameState :=
  { player_squad := [exC3Attacker], enemy_units := [exC3Target], map := openMap,
    combat_log := [], effect_queue := [], error_log := [], diagnostics := [],
    active_unit_id := some "a1" }

def exC5Unit : Unit :=
  { id := "m1", name := "Mover", x := 0, y := 0, health := 100, max_health := 100,
    ap := 10, max_ap := 10, faction := "player", status_effects := [],
    current_ammo := 5, max_ammo := 5, attributes := exAttrs }

def exC5State : GameState :=
  { player_squad := [exC5Unit], enemy_units := [], map := openMap,
    combat_log := [], effect_queue := [], error_log := [], diagnostics := [],
    active_unit_id := some "m1" }

def exC6Active : Unit :=
  { id := "p1", name := "Pat", x := 0, y := 0, health := 100, max_health := 100,
    ap := 10, max_ap := 10, faction := "player", status_effects := [],
    current_ammo := 5, max_ammo := 5, attributes := exAttrs }

def exC6Blocker : Unit :=
  { id := "p2", name := "Quinn", x := 1, y := 0, health := 100, max_health := 100,
    ap := 10, max_ap := 10, faction := "enemy", status_effects := [],
    current_ammo := 5, max_ammo := 5, attributes := exAttrs }

/-- A 3×3 open map with one player unit at (0,0) (the active unit) and
one enemy at (1,0). -/
def exC6State : GameState :=
  { player_squad := [exC6Active], enemy_units := [exC6Blocker],
    map := { height := 3, width := 3,
             blocks_sight := fun _ _ => false,
             blocks_movement := fun _ _ => false,
             cover := fun _ _ => 0 },
    combat_log := [], effect_queue := [], error_log := [], diagnostics := [],
    active_unit_id := some "p1" }

def exC7Enemy : Unit :=
  { id := "e7", name := "Raider", x := 0, y := 0, health := 100, max_health := 100,
    ap := 10, max_ap := 10, faction := "enemy", status_effects := [],
    current_ammo := 5, max_ammo := 5, attributes := exAttrs }

def exC7Player : Unit :=
  { id := "p7", name := "Scout", x := 2, y := 0, health := 100, max_health := 100,
    ap := 10, max_ap := 10, faction := "player", status_effects := [],
    current_ammo := 5, max_ammo := 5, attributes := exAttrs }

/-- One enemy and one player target in sight at Euclidean distance 2 on
an open, cover-free map. -/
def exC7State : GameState :=
  { player_squad := [exC7Player], enemy_units := [exC7Enemy], map := openMap,
    combat_log := [], effect_queue := [], error_log := [], diagnostics := [],
    active_unit_id := none }

/-- Loop invariant for the Bresenham stepping: writing
`a = (x - x0) * sx` and `b = (y - y0) * sy` for the number of x- and
y-steps taken so far, both are within `[0, dx]` / `[0, dy]` and the error
accumulator equals `dx - dy - a*dy + b*dx`. -/
def LosInv (x0 y0 x1 y1 x y err : Int) : Prop :=
  0 ≤ (x - x0) * losInitSx x0 x1 ∧
  (x - x0) * losInitSx x0 x1 ≤ ((x1 - x0).natAbs : Int) ∧
  0 ≤ (y - y0) * losInitSy y0 y1 ∧
  (y - y0) * losInitSy y0 y1 ≤ ((y1 - y0).natAbs : Int) ∧
  err = ((x1 - x0).natAbs : Int) - ((y1 - y0).natAbs : Int)
      - (x - x0) * losInitSx x0 x1 * ((y1 - y0).natAbs : Int)
      + (y - y0) * losInitSy y0 y1 * ((x1 - x0).natAbs : Int)

/-!
Theorems

Bresenham stepping: invariant, termination, characterization
-/

theorem losInitSx_cases (x0 x1 : Int) : losInitSx x0 x1 = 1 ∨ losInitSx x0 x1 = -1 := by
  unfold losInitSx
  split
  · exact Or.inl rfl
  · exact Or.inr rfl

theorem losInitSy_eq (y0 y1 : Int) : losInitSy y0 y1 = losInitSx y0 y1 := rfl

theorem natAbs_eq_mul_losInitSx (x0 x1 : Int) :
    ((x1 - x0).natAbs : Int) = (x1 - x0) * losInitSx x0 x1 := by
  unfold losInitSx
  split <;> omega

theorem steps_eq_iff (x0 x1 x : Int) :
    (x - x0) * losInitSx x0 x1 = ((x1 - x0).natAbs : Int) ↔ x = x1 := by
  unfold losInitSx
  split <;> constructor <;> intro h <;> omega

/-- The arithmetic heart of termination: the Bresenham error conditions
can neither push `x` past `x1` nor `y` past `y1`, and at least one of
them fires strictly before the destination. -/
theorem bres_step_bounds (a b dx dy err : Int)
    (ha0 : 0 ≤ a) (hadx : a ≤ dx) (hb0 : 0 ≤ b) (hbdy : b ≤ dy)
    (herr : err = dx - dy - a * dy + b * dx)
    (hne : ¬(a = dx ∧ b = dy)) :
    (-dy < 2 * err → a < dx) ∧ (2 * err < dx → b < dy) ∧
      (-dy < 2 * err ∨ 2 * err < dx) := by
  have hdx0 : 0 ≤ dx := ha0.trans hadx
  have hdy0 : 0 ≤ dy := hb0.trans hbdy
  subst herr
  refine ⟨?_, ?_, ?_⟩
  · intro hc1
    by_contra hlt
    have hax : a = dx := le_antisymm hadx (not_lt.mp hlt)
    subst hax
    have hbd : b < dy := lt_of_le_of_ne hbdy (fun h => hne ⟨rfl, h⟩)
    nlinarith [mul_nonneg hdx0 (show (0 : Int) ≤ dy - 1 - b by omega)]
  · intro hc2
    by_contra hlt
    have hbd : b = dy := le_antisymm hbdy (not_lt.mp hlt)
    subst hbd
    have had : a < dx := lt_of_le_of_ne hadx (fun h => hne ⟨h, rfl⟩)
    nlinarith [mul_nonneg hdy0 (show (0 : Int) ≤ dx - 1 - a by omega)]
  · by_contra hcon
    push_neg at hcon
    obtain ⟨h1, h2⟩ := hcon
    have h3 : dx ≤ -dy := le_trans h2 h1
    have hdx : dx = 0 := by omega
    have hdy : dy = 0 := by omega
    exact hne ⟨by omega, by omega⟩

/-- One Bresenham step preserves `LosInv` and strictly increases the
number of steps taken. -/
theorem losStep_inv_progress (x0 y0 x1 y1 x y err : Int)
    (hinv : LosInv x0 y0 x1 y1 x y err) (hne : ¬(x = x1 ∧ y = y1)) :
    ∃ x' y' err',
      losStep ((x1 - x0).natAbs : Int) ((y1 - y0).natAbs : Int)
        (losInitSx x0 x1) (losInitSy y0 y1) x y err = (x', y', err') ∧
      LosInv x0 y0 x1 y1 x' y' err' ∧
      (x - x0) * losInitSx x0 x1 + (y - y0) * losInitSy y0 y1 + 1 ≤
        (x' - x0) * losInitSx x0 x1 + (y' - y0) * losInitSy y0 y1 := by
  obtain ⟨ha0, hadx, hb0, hbdy, herr⟩ := hinv
  have hne' : ¬((x - x0) * losInitSx x0 x1 = ((x1 - x0).natAbs : Int) ∧
      (y - y0) * losInitSy y0 y1 = ((y1 - y0).natAbs : Int)) := by
    intro hc
    have hc2 := hc.2
    rw [losInitSy_eq] at hc2
    exact hne ⟨(steps_eq_iff x0 x1 x).mp hc.1, (steps_eq_iff y0 y1 y).mp hc2⟩
  have hsx2 : losInitSx x0 x1 * losInitSx x0 x1 = 1 := by
    rcases losInitSx_cases x0 x1 with h | h <;> rw [h] <;> norm_num
  have hsy2 : losInitSy y0 y1 * losInitSy y0 y1 = 1 := by
    rw [losInitSy_eq]
    rcases losInitSx_cases y0 y1 with h | h <;> rw [h] <;> norm_num
  have haa : (x + losInitSx x0 x1 - x0) * losInitSx x0 x1 =
      (x - x0) * losInitSx x0 x1 + 1 := by
    have h : (x + losInitSx x0 x1 - x0) * losInitSx x0 x1 =
        (x - x0) * losInitSx x0 x1 + losInitSx x0 x1 * losInitSx x0 x1 := by ring
    rw [h, hsx2]
  have hbb : (y + losInitSy y0 y1 - y0) * losInitSy y0 y1 =
      (y - y0) * losInitSy y0 y1 + 1 := by
    have h : (y + losInitSy y0 y1 - y0) * losInitSy y0 y1 =
        (y - y0) * losInitSy y0 y1 + losInitSy y0 y1 * losInitSy y0 y1 := by ring
    rw [h, hsy2]
  have hb := bres_step_bounds _ _ _ _ _ ha0 hadx hb0 hbdy herr hne'
  by_cases hc1 : -(((y1 - y0).natAbs : Int)) < 2 * err <;>
    by_cases hc2 : 2 * err < ((x1 - x0).natAbs : Int)
  · refine ⟨x + losInitSx x0 x1, y + losInitSy y0 y1,
      err - ((y1 - y0).natAbs : Int) + ((x1 - x0).natAbs : Int), ?_, ?_, ?_⟩
    · simp only [losStep, if_pos hc1, if_pos hc2]
    · refine ⟨?_, ?_, ?_, ?_, ?_⟩
      · rw [haa]; linarith
      · rw [haa]; have := hb.1 hc1; linarith
      · rw [hbb]; linarith
      · rw [hbb]; have := hb.2.1 hc2; linarith
      · rw [haa, hbb, herr]; ring
    · rw [haa, hbb]; linarith
  · refine ⟨x + losInitSx x0 x1, y,
      err - ((y1 - y0).natAbs : Int), ?_, ?_, ?_⟩
    · simp only [losStep, if_pos hc1, if_neg hc2]
    · refine ⟨?_, ?_, ?_, ?_, ?_⟩
      · rw [haa]; linarith
      · rw [haa]; have := hb.1 hc1; linarith
      · exact hb0
      · exact hbdy
      · rw [haa, herr]; ring
    · rw [haa]; linarith
  · refine ⟨x, y + losInitSy y0 y1, err + ((x1 - x0).natAbs : Int), ?_, ?_, ?_⟩
    · simp only [losStep, if_neg hc1, if_pos hc2]
    · refine ⟨?_, ?_, ?_, ?_, ?_⟩
      · exact ha0
      · exact hadx
      · rw [hbb]; linarith
      · rw [hbb]; have := hb.2.1 hc2; linarith
      · rw [hbb, herr]; ring
    · rw [hbb]; linarith
  · rcases hb.2.2 with h | h <;> contradiction

/-- With fuel exceeding the remaining number of steps, the
`has_line_of_sight` loop always returns an answer. -/
theorem losLoop_isSome_of_inv (m : GameMap) (x0 y0 x1 y1 : Int) :
    ∀ (fuel : Nat) (x y err : Int), LosInv x0 y0 x1 y1 x y err →
    (((x1 - x0).natAbs : Int) - (x - x0) * losInitSx x0 x1) +
      (((y1 - y0).natAbs : Int) - (y - y0) * losInitSy y0 y1) < (fuel : Int) →
    (losLoop m x0 y0 x1 y1 (losInitSx x0 x1) (losInitSy y0 y1)
      ((x1 - x0).natAbs : Int) ((y1 - y0).natAbs : Int) fuel x y err).isSome := by
  intro fuel
  induction fuel with
  | zero =>
    intro x y err hinv hrem
    obtain ⟨_, hadx, _, hbdy, _⟩ := hinv
    exfalso
    rw [Nat.cast_zero] at hrem
    linarith
  | succ fuel ih =>
    intro x y err hinv hrem
    rw [losLoop]
    split
    · simp
    · split
      · simp
      · rename_i hblock hend
        obtain ⟨x', y', err', hstep, hinv', hprog⟩ :=
          losStep_inv_progress x0 y0 x1 y1 x y err hinv hend
        rw [hstep]
        apply ih x' y' err' hinv'
        rw [Nat.cast_succ] at hrem
        linarith

/-- The trace recorder succeeds on exactly the same fuel budget. -/
theorem losTrace_isSome_of_inv (x0 y0 x1 y1 : Int) :
    ∀ (fuel : Nat) (x y err : Int), LosInv x0 y0 x1 y1 x y err →
    (((x1 - x0).natAbs : Int) - (x - x0) * losInitSx x0 x1) +
      (((y1 - y0).natAbs : Int) - (y - y0) * losInitSy y0 y1) < (fuel : Int) →
    (losTrace x1 y1 ((x1 - x0).natAbs : Int) ((y1 - y0).natAbs : Int)
      (losInitSx x0 x1) (losInitSy y0 y1) fuel x y err).isSome := by
  intro fuel
  induction fuel with
  | zero =>
    intro x y err hinv hrem
    obtain ⟨_, hadx, _, hbdy, _⟩ := hinv
    exfalso
    rw [Nat.cast_zero] at hrem
    linarith
  | succ fuel ih =>
    intro x y err hinv hrem
    rw [losTrace]
    split
    · simp
    · rename_i hend
      obtain ⟨x', y', err', hstep, hinv', hprog⟩ :=
        losStep_inv_progress x0 y0 x1 y1 x y err hinv hend
      rw [hstep]
      have h := ih x' y' err' hinv' (by rw [Nat.cast_succ] at hrem; linarith)
      obtain ⟨l, hl⟩ := Option.isSome_iff_exists.mp h
      rw [hl]
      rfl

/-- The invariant holds at the loop entry. -/
theorem losInv_init (x0 y0 x1 y1 : Int) :
    LosInv x0 y0 x1 y1 x0 y0
      (((x1 - x0).natAbs : Int) - ((y1 - y0).natAbs : Int)) := by
  refine ⟨?_, ?_, ?_, ?_, ?_⟩ <;> simp

theorem cell_blocks_strictly_iff (m : GameMap) (x0 y0 x1 y1 : Int) (p : Int × Int) :
    cell_blocks_strictly m x0 y0 x1 y1 p = true ↔
      (tile_blocks_sight m p.1 p.2 = true ∧ ¬(p = (x0, y0)) ∧ ¬(p = (x1, y1))) := by
  simp [cell_blocks_strictly, and_assoc]

/-- Whenever the trace recorder completes, the `has_line_of_sight` loop
returns exactly "no traversed cell blocks strictly". -/
theorem losLoop_eq_of_trace (m : GameMap) (x0 y0 x1 y1 dx dy sx sy : Int) :
    ∀ (fuel : Nat) (x y err : Int) (pts : List (Int × Int)),
    losTrace x1 y1 dx dy sx sy fuel x y err = some pts →
    losLoop m x0 y0 x1 y1 sx sy dx dy fuel x y err =
      some (!pts.any (cell_blocks_strictly m x0 y0 x1 y1)) := by
  intro fuel
  induction fuel with
  | zero =>
    intro x y err pts htr
    simp [losTrace] at htr
  | succ fuel ih =>
    intro x y err pts htr
    rw [losTrace] at htr
    rw [losLoop]
    by_cases hend : x = x1 ∧ y = y1
    · rw [if_pos hend] at htr
      have hpts : pts = [(x, y)] := by
        injection htr with h
        exact h.symm
      subst hpts
      have hnb : ¬(tile_blocks_sight m x y ∧ ¬((x, y) = (x0, y0)) ∧ ¬((x, y) = (x1, y1))) := by
        intro hc
        exact hc.2.2 (by rw [hend.1, hend.2])
      rw [if_neg hnb, if_pos hend]
      have hcell : cell_blocks_strictly m x0 y0 x1 y1 (x, y) = false := by
        rw [Bool.eq_false_iff]
        intro hc
        exact hnb ((cell_blocks_strictly_iff m x0 y0 x1 y1 (x, y)).mp hc)
      simp [hcell]
    · rw [if_neg hend] at htr
      rw [Option.map_eq_some'] at htr
      obtain ⟨rest, hrest, hpts⟩ := htr
      subst hpts
      by_cases hblk : tile_blocks_sight m x y ∧ ¬((x, y) = (x0, y0)) ∧ ¬((x, y) = (x1, y1))
      · rw [if_pos hblk]
        have hcell : cell_blocks_strictly m x0 y0 x1 y1 (x, y) = true :=
          (cell_blocks_strictly_iff m x0 y0 x1 y1 (x, y)).mpr hblk
        simp [hcell]
      · rw [if_neg hblk, if_neg hend]
        have hcell : cell_blocks_strictly m x0 y0 x1 y1 (x, y) = false := by
          rw [Bool.eq_false_iff]
          intro hc
          exact hblk ((cell_blocks_strictly_iff m x0 y0 x1 y1 (x, y)).mp hc)
        rw [ih _ _ _ _ hrest]
        simp [hcell]

theorem los_run_isSome (m : GameMap) (x0 y0 x1 y1 : Int) :
    (los_run m x0 y0 x1 y1).isSome := by
  unfold los_run losFuel
  apply losLoop_isSome_of_inv m x0 y0 x1 y1 _ x0 y0 _ (losInv_init x0 y0 x1 y1)
  simp only [sub_self, zero_mul, sub_zero]
  push_cast
  linarith

theorem los_run_eq_some (m : GameMap) (x0 y0 x1 y1 : Int) :
    los_run m x0 y0 x1 y1 = some (has_line_of_sight m x0 y0 x1 y1) := by
  obtain ⟨b, hb⟩ := Option.isSome_iff_exists.mp (los_run_isSome m x0 y0 x1 y1)
  rw [has_line_of_sight, hb]
  rfl

theorem bresenham_points_run (x0 y0 x1 y1 : Int) :
    losTrace x1 y1 ((x1 - x0).natAbs : Int) ((y1 - y0).natAbs : Int)
      (losInitSx x0 x1) (losInitSy y0 y1) (losFuel x0 y0 x1 y1) x0 y0
      (((x1 - x0).natAbs : Int) - ((y1 - y0).natAbs : Int)) =
      some (bresenham_points x0 y0 x1 y1) := by
  have h : (losTrace x1 y1 ((x1 - x0).natAbs : Int) ((y1 - y0).natAbs : Int)
      (losInitSx x0 x1) (losInitSy y0 y1) (losFuel x0 y0 x1 y1) x0 y0
      (((x1 - x0).natAbs : Int) - ((y1 - y0).natAbs : Int))).isSome := by
    unfold losFuel
    apply losTrace_isSome_of_inv x0 y0 x1 y1 _ x0 y0 _ (losInv_init x0 y0 x1 y1)
    simp only [sub_self, zero_mul, sub_zero]
    push_cast
    linarith
  obtain ⟨l, hl⟩ := Option.isSome_iff_exists.mp h
  rw [bresenham_points, hl]
  rfl

/-- `has_line_of_sight` is the all-clear check over the full traced
cell sequence. -/
theorem has_los_eq_any (m : GameMap) (x0 y0 x1 y1 : Int) :
    has_line_of_sight m x0 y0 x1 y1 =
      !(bresenham_points x0 y0 x1 y1).any (cell_blocks_strictly m x0 y0 x1 y1) := by
  have h := losLoop_eq_of_trace m x0 y0 x1 y1
    ((x1 - x0).natAbs : Int) ((y1 - y0).natAbs : Int)
    (losInitSx x0 x1) (losInitSy y0 y1) (losFuel x0 y0 x1 y1) x0 y0
    (((x1 - x0).natAbs : Int) - ((y1 - y0).natAbs : Int))
    (bresenham_points x0 y0 x1 y1) (bresenham_points_run x0 y0 x1 y1)
  have h2 : los_run m x0 y0 x1 y1 =
      some (!(bresenham_points x0 y0 x1 y1).any (cell_blocks_strictly m x0 y0 x1 y1)) := h
  have h3 := los_run_eq_some m x0 y0 x1 y1
  rw [h3] at h2
  injection h2

/-- The debug-line buffer is write-only: the boolean outcome of the loop
with the debug side channel is the plain loop's outcome, whatever the
overlay flag, the accumulated points and the buffer contents. -/
theorem losLoopD_fst (m : GameMap) (overlay : Bool) (x0 y0 x1 y1 sx sy dx dy : Int) :
    ∀ (fuel : Nat) (x y err : Int) (pts : List (Int × Int)) (dbg : List DebugLine),
    (losLoopD m overlay x0 y0 x1 y1 sx sy dx dy fuel x y err pts dbg).map Prod.fst =
      losLoop m x0 y0 x1 y1 sx sy dx dy fuel x y err := by
  intro fuel
  induction fuel with
  | zero => intro x y err pts dbg; rfl
  | succ fuel ih =>
    intro x y err pts dbg
    simp only [losLoopD, losLoop]
    by_cases h1 : tile_blocks_sight m x y ∧ ¬((x, y) = (x0, y0)) ∧ ¬((x, y) = (x1, y1))
    · rw [if_pos h1, if_pos h1]
      rfl
    · rw [if_neg h1, if_neg h1]
      by_cases h2 : x = x1 ∧ y = y1
      · rw [if_pos h2, if_pos h2]
        rfl
      · rw [if_neg h2, if_neg h2]
        apply ih

/-- C10: for every quadruple of integer arguments, including coordinates
outside the current map, the Bresenham stepping loop of
`has_line_of_sight` reaches the destination cell within its fuel and
yields a boolean — the fuel-wrapped run is `some` of the function's
result, with every traversed cell bounds-guarded inside
`tile_blocks_sight` so cells outside the map never block. -/
theorem ig1_C10_los_total (m : GameMap) (x0 y0 x1 y1 : Int) :
    los_run m x0 y0 x1 y1 = some (has_line_of_sight m x0 y0 x1 y1) :=
  los_run_eq_some m x0 y0 x1 y1

/-- C4: `has_line_of_sight(x0,y0,x1,y1)` returns false iff some cell on
the traced Bresenham line other than the two endpoints is an in-bounds
sight-blocking tile, and the debug-line side channel never affects the
returned value. -/
theorem ig1_C4_los_blocking (m : GameMap) (x0 y0 x1 y1 : Int) :
    (has_line_of_sight m x0 y0 x1 y1 = false ↔
      ∃ p ∈ bresenham_points x0 y0 x1 y1,
        cell_blocks_strictly m x0 y0 x1 y1 p = true) ∧
    ∀ overlay : Bool,
      (has_line_of_sight_debug m overlay x0 y0 x1 y1).map Prod.fst =
        some (has_line_of_sight m x0 y0 x1 y1) := by
  constructor
  · rw [has_los_eq_any]
    simp [List.any_eq_true]
  · intro overlay
    unfold has_line_of_sight_debug
    rw [losLoopD_fst]
    exact los_run_eq_some m x0 y0 x1 y1

/-- C9: whenever the cell sequence traced from `(x1,y1)` back to
`(x0,y0)` is the reverse of the sequence traced from `(x0,y0)` to
`(x1,y1)`, line of sight is symmetric between the two endpoints. -/
theorem ig1_C9_los_symm (m : GameMap) (x0 y0 x1 y1 : Int)
    (h : bresenham_points x1 y1 x0 y0 = (bresenham_points x0 y0 x1 y1).reverse) :
    has_line_of_sight m x0 y0 x1 y1 = has_line_of_sight m x1 y1 x0 y0 := by
  rw [has_los_eq_any m x0 y0 x1 y1, has_los_eq_any m x1 y1 x0 y0, h]
  have hP : cell_blocks_strictly m x1 y1 x0 y0 = cell_blocks_strictly m x0 y0 x1 y1 := by
    funext p
    unfold cell_blocks_strictly
    rw [Bool.and_assoc, Bool.and_assoc,
      Bool.and_comm (decide (p ≠ (x1, y1))) (decide (p ≠ (x0, y0)))]
  rw [hP, List.any_reverse]

/-- C9 witness: a straight horizontal segment, whose reverse trace is the
reversed trace, instantiating the symmetry theorem. -/
theorem ig1_C9_witness :
    bresenham_points 3 0 0 0 = (bresenham_points 0 0 3 0).reverse ∧
    has_line_of_sight openMap 0 0 3 0 = has_line_of_sight openMap 3 0 0 0 := by
  constructor
  · decide
  · exact ig1_C9_los_symm openMap 0 0 3 0 (by decide)

/-! ## Hit chance (C2) and movement economy (C5) -/

theorem sqrtCountdown_eq (n : Nat) : ∀ k, Nat.sqrt n ≤ k → sqrtCountdown n k = Nat.sqrt n := by
  intro k
  induction k with
  | zero =>
    intro h
    have h0 : Nat.sqrt n = 0 := Nat.le_zero.mp h
    simp [sqrtCountdown, h0]
  | succ k ih =>
    intro h
    rw [sqrtCountdown]
    by_cases hk : (k + 1) * (k + 1) ≤ n
    · rw [if_pos hk]
      have h1 : k + 1 ≤ Nat.sqrt n := Nat.le_sqrt.mpr hk
      omega
    · rw [if_neg hk]
      apply ih
      have h2 : Nat.sqrt n * Nat.sqrt n ≤ n := by
        have h3 := Nat.sqrt_le' n
        rw [pow_two] at h3
        exact h3
      by_contra hc
      have : Nat.sqrt n = k + 1 := by omega
      rw [this] at h2
      exact hk h2

/-- The countdown square root is the mathematical floor square root. -/
theorem floorSqrt_eq_sqrt (n : Nat) : floorSqrt n = Nat.sqrt n :=
  sqrtCountdown_eq n n (Nat.sqrt_le_self n)

/-- C2: `calculate_hit_chance` is a pure function equal to the clamped
base-plus-modifiers formula, its result always lies in `[5, 95]`, and an
attacker of marksmanship 70 at distance 0 from a cover-0 tile against a
target of agility 60 hits with exactly `BASE_HIT_CHANCE`. -/
theorem ig1_C2_hit_chance (m : GameMap) (attacker target : Unit) :
    (calculate_hit_chance m attacker target =
        max 5 (min 95 (Cfg.BASE_HIT_CHANCE +
          Int.fdiv (attacker.attributes.marksmanship - 70) 2 -
          distance_penalty attacker target -
          m.cover target.y.toNat target.x.toNat -
          Int.fdiv (target.attributes.agility - 60) 4)) ∧
      distance_penalty attacker target =
        (Nat.sqrt (9 * ((attacker.x - target.x).natAbs ^ 2 +
          (attacker.y - target.y).natAbs ^ 2)) : Nat) ∧
      5 ≤ calculate_hit_chance m attacker target ∧
      calculate_hit_chance m attacker target ≤ 95) ∧
    (attacker.attributes.marksmanship = 70 → target.attributes.agility = 60 →
      attacker.x = target.x → attacker.y = target.y →
      m.cover target.y.toNat target.x.toNat = 0 →
      calculate_hit_chance m attacker target = Cfg.BASE_HIT_CHANCE) := by
  constructor
  · refine ⟨rfl, ?_, ?_, ?_⟩
    · unfold distance_penalty
      rw [floorSqrt_eq_sqrt]
    · exact le_max_left 5 _
    · exact max_le (by norm_num) (min_le_left 95 _)
  · intro h1 h2 h3 h4 h5
    unfold calculate_hit_chance distance_penalty
    rw [h1, h2, h3, h4, h5]
    norm_num [Cfg.BASE_HIT_CHANCE, floorSqrt, sqrtCountdown]

/-- C2 witness: the marksmanship-70 / agility-60 / distance-0 / cover-0
scenario on concrete units. -/
theorem ig1_C2_witness :
    calculate_hit_chance openMap exShooter exTargetC2 = Cfg.BASE_HIT_CHANCE :=
  (ig1_C2_hit_chance openMap exShooter exTargetC2).2 rfl rfl rfl rfl rfl

/-- C5: `can_reach_position` is the Manhattan-distance AP test;
`move_unit` with insufficient AP is a no-op; with sufficient AP it
deducts exactly the Manhattan cost, sets the position, and invokes the
overwatch trigger check with the unit's prior position; a unit with 10 AP
cannot reach Manhattan distance 11 and does not move. -/
theorem ig1_C5_movement :
    (∀ (u : Unit) (x y : Int),
      can_reach_position u x y = true ↔
        manhattan_distance u x y * Cfg.AP_COST_MOVE ≤ u.ap) ∧
    (∀ (roll j : Int) (uid : String) (x y : Int) (s : GameState) (u : Unit),
      find_unit_by_id s uid = some u →
      u.ap < manhattan_distance u x y * Cfg.AP_COST_MOVE →
      move_unit roll j uid x y s = s) ∧
    (∀ (roll j : Int) (uid : String) (x y : Int) (s : GameState) (u : Unit),
      find_unit_by_id s uid = some u →
      manhattan_distance u x y * Cfg.AP_COST_MOVE ≤ u.ap →
      move_unit roll j uid x y s =
        check_overwatch_triggers roll j
          { u with x := x, y := y,
                   ap := u.ap - manhattan_distance u x y * Cfg.AP_COST_MOVE }
          u.x u.y
          (update_unit s uid (fun v =>
            { v with x := x, y := y,
                     ap := v.ap - manhattan_distance u x y * Cfg.AP_COST_MOVE }))) ∧
    (∀ (u : Unit) (x y : Int), u.ap = 10 → manhattan_distance u x y = 11 →
      can_reach_position u x y = false ∧
      ∀ (roll j : Int) (s : GameState),
        find_unit_by_id s u.id = some u → move_unit roll j u.id x y s = s) := by
  refine ⟨?_, ?_, ?_, ?_⟩
  · intro u x y
    simp [can_reach_position]
  · intro roll j uid x y s u hfind hap
    unfold move_unit
    rw [hfind]
    simp only [if_neg (not_le.mpr hap)]
  · intro roll j uid x y s u hfind hap
    unfold move_unit
    rw [hfind]
    simp only [if_pos hap]
  · intro u x y hap hdist
    constructor
    · simp [can_reach_position, hdist, hap, Cfg.AP_COST_MOVE]
    · intro roll j s hfind
      unfold move_unit
      rw [hfind]
      have h : ¬(manhattan_distance u x y * Cfg.AP_COST_MOVE ≤ u.ap) := by
        rw [hdist, hap]
        norm_num [Cfg.AP_COST_MOVE]
      simp only [if_neg h]

/-- C5 witness: a 10-AP unit attempting a Manhattan-distance-11 move:
unreachable and the move is a no-op. -/
theorem ig1_C5_witness :
    can_reach_position exC5Unit 6 5 = false ∧
    move_unit 50 0 "m1" 6 5 exC5State = exC5State := by
  have h := (ig1_C5_movement).2.2.2 exC5Unit 6 5 rfl (by decide)
  exact ⟨h.1, h.2 50 0 exC5State rfl⟩

/-! ## Reactive overwatch triggers (C1) -/

/-- The watcher-scan loop acts on exactly the first qualifying watcher of
the scanned list, in the sense of spec §4.5. -/
theorem overwatch_scan_eq (roll j : Int) (moved : Unit) (ox oy : Int) (s : GameState) :
    ∀ l : List Unit, overwatch_scan roll j moved ox oy l s =
      match l.find? (overwatch_qualifies s.map moved ox oy) with
      | none => s
      | some w =>
        update_unit
          (execute_attack roll j w.id moved.id
            (add_log s (w.name ++ " fires overwatch at " ++ moved.name ++ "!")))
          w.id (fun v => { v with status_effects := v.status_effects.erase "overwatch" }) := by
  intro l
  induction l with
  | nil => rfl
  | cons w rest ih =>
    rw [overwatch_scan]
    by_cases h1 : "overwatch" ∈ w.status_effects ∧ 0 < w.health
    · rw [if_pos h1]
      by_cases h2 : has_line_of_sight s.map w.x w.y moved.x moved.y = true
      · rw [if_pos h2]
        by_cases h3 : has_line_of_sight s.map w.x w.y ox oy = true
        · rw [if_pos h3]
          have hq : ¬(overwatch_qualifies s.map moved ox oy w = true) := by
            simp [overwatch_qualifies, h3]
          rw [List.find?_cons_of_neg _ hq]
          exact ih
        · rw [if_neg h3]
          have h3' : has_line_of_sight s.map w.x w.y ox oy = false :=
            Bool.eq_false_iff.mpr h3
          have hq : overwatch_qualifies s.map moved ox oy w = true := by
            simp [overwatch_qualifies, h1.1, h1.2, h2, h3']
          rw [List.find?_cons_of_pos _ hq]
      · rw [if_neg h2]
        have hq : ¬(overwatch_qualifies s.map moved ox oy w = true) := by
          simp [overwatch_qualifies]
          intro _ _ hc
          exact absurd hc h2
        rw [List.find?_cons_of_neg _ hq]
        exact ih
    · rw [if_neg h1]
      have hq : ¬(overwatch_qualifies s.map moved ox oy w = true) := by
        simp only [overwatch_qualifies, Bool.and_eq_true, decide_eq_true_eq]
        intro hc
        exact h1 ⟨hc.1.1.1, hc.1.1.2⟩
      rw [List.find?_cons_of_neg _ hq]
      exact ih

/-- C1 (amended): each invocation of `check_overwatch_triggers` acts on
exactly the first living opposing watcher in overwatch with sight of the
new but not the old position — one attack, the watcher's overwatch
removed, no further watchers evaluated — and a watcher that saw both
tiles never qualifies.  (The per-movement bound of the original claim is
refuted separately: AI moves run this check twice.) -/
theorem ig1_C1_overwatch (roll j : Int) (moved : Unit) (ox oy : Int) (s : GameState) :
    check_overwatch_triggers roll j moved ox oy s =
      check_overwatch_spec roll j moved ox oy s ∧
    ∀ w : Unit, has_line_of_sight s.map w.x w.y moved.x moved.y = true →
      has_line_of_sight s.map w.x w.y ox oy = true →
      overwatch_qualifies s.map moved ox oy w = false := by
  constructor
  · unfold check_overwatch_triggers check_overwatch_spec
    exact overwatch_scan_eq roll j moved ox oy s _
  · intro w hnew hold
    simp [overwatch_qualifies, hold]

/-- C1 witness: a watcher with sight of both the old and the new tile
does not qualify for a reactive shot. -/
theorem ig1_C1_theorem_witness :
    overwatch_qualifies exC1State.map { exC1Enemy with x := 2 } 3 0 exC1W1 = false :=
  (ig1_C1_overwatch 100 0 { exC1Enemy with x := 2 } 3 0 exC1State).2 exC1W1
    (by decide) (by decide)

set_option maxRecDepth 10000 in
/-- C1 counterexample: a single AI take-cover movement triggers TWO
reactive overwatch shots — `move_unit` runs the trigger check once and
`ai_try_take_cover` runs it again — so both watchers spend their
overwatch status and one round of ammo for one movement, refuting "at
most one reactive overwatch shot per single movement". -/
theorem ig1_C1_counterexample :
    (ai_try_take_cover 100 0 100 0 exC1Enemy exC1State).1 = true ∧
    ((find_unit_by_id (ai_try_take_cover 100 0 100 0 exC1Enemy exC1State).2 "w1").map
      (fun u => (u.current_ammo, u.status_effects))) = some (4, []) ∧
    ((find_unit_by_id (ai_try_take_cover 100 0 100 0 exC1Enemy exC1State).2 "w2").map
      (fun u => (u.current_ammo, u.status_effects))) = some (4, []) := by
  refine ⟨?_, ?_, ?_⟩ <;> decide

/-! ## Registry helper lemmas: `find_unit_by_id` through updates,
erasures and log appends -/

theorem find_unit_add_log (s : GameState) (msg : String) (uid : String) :
    find_unit_by_id (add_log s msg) uid = find_unit_by_id s uid := rfl

theorem find_unit_add_effect (s : GameState) (e : Effect) (uid : String) :
    find_unit_by_id (add_effect s e) uid = find_unit_by_id s uid := rfl

theorem find_unit_print_diag (s : GameState) (msg : String) (uid : String) :
    find_unit_by_id (print_diag s msg) uid = find_unit_by_id s uid := rfl

theorem find_unit_log_error (s : GameState) (msg : String) (uid : String) :
    find_unit_by_id (log_error s msg) uid = find_unit_by_id s uid := rfl

theorem find?_updateFirst_self (uid : String) (f : Unit → Unit)
    (hf : ∀ u, (f u).id = u.id) :
    ∀ l : List Unit, (updateFirst uid f l).find? (fun u => u.id == uid) =
      (l.find? (fun u => u.id == uid)).map f := by
  intro l
  induction l with
  | nil => rfl
  | cons u rest ih =>
    rw [updateFirst]
    by_cases h : u.id = uid
    · rw [if_pos h, List.find?_cons_of_pos _ (by simp [hf u, h]),
        List.find?_cons_of_pos _ (by simp [h])]
      rfl
    · rw [if_neg h, List.find?_cons_of_neg _ (by simp [h]),
        List.find?_cons_of_neg _ (by simp [h])]
      exact ih

theorem find?_updateFirst_ne (uid uid' : String) (f : Unit → Unit) (hne : uid' ≠ uid)
    (hf : ∀ u, (f u).id = u.id) :
    ∀ l : List Unit, (updateFirst uid f l).find? (fun u => u.id == uid') =
      l.find? (fun u => u.id == uid') := by
  intro l
  induction l with
  | nil => rfl
  | cons u rest ih =>
    rw [updateFirst]
    by_cases h : u.id = uid
    · rw [if_pos h, List.find?_cons_of_neg _ (by simp [hf u, h]; exact fun hc => hne hc.symm),
        List.find?_cons_of_neg _ (by simp [h]; exact fun hc => hne hc.symm)]
    · rw [if_neg h]
      by_cases h2 : u.id = uid'
      · rw [List.find?_cons_of_pos _ (by simp [h2]), List.find?_cons_of_pos _ (by simp [h2])]
      · rw [List.find?_cons_of_neg _ (by simp [h2]), List.find?_cons_of_neg _ (by simp [h2])]
        exact ih

theorem updateFirst_append (uid : String) (f : Unit → Unit) (l1 l2 : List Unit) :
    updateFirst uid f (l1 ++ l2) =
      if contains_id uid l1 then updateFirst uid f l1 ++ l2
      else l1 ++ updateFirst uid f l2 := by
  induction l1 with
  | nil => simp [contains_id, updateFirst]
  | cons u rest ih =>
    by_cases h : u.id = uid
    · simp [updateFirst, contains_id, h]
    · have hcons : contains_id uid (u :: rest) = contains_id uid rest := by
        simp [contains_id, h]
      have hstep : updateFirst uid f (u :: (rest ++ l2)) =
          u :: updateFirst uid f (rest ++ l2) := by
        simp [updateFirst, h]
      have hstep2 : updateFirst uid f (u :: rest) = u :: updateFirst uid f rest := by
        simp [updateFirst, h]
      rw [List.cons_append, hstep, ih, hcons, hstep2]
      split_ifs <;> simp

theorem update_unit_append (s : GameState) (uid : String) (f : Unit → Unit) :
    (update_unit s uid f).player_squad ++ (update_unit s uid f).enemy_units =
      updateFirst uid f (s.player_squad ++ s.enemy_units) := by
  unfold update_unit
  rw [updateFirst_append]
  by_cases h : contains_id uid s.player_squad = true
  · rw [if_pos h, if_pos h]
  · rw [if_neg h, if_neg h]

theorem find_unit_update_self (s : GameState) (uid : String) (f : Unit → Unit)
    (hf : ∀ u, (f u).id = u.id) :
    find_unit_by_id (update_unit s uid f) uid = (find_unit_by_id s uid).map f := by
  unfold find_unit_by_id
  rw [update_unit_append, find?_updateFirst_self uid f hf]

theorem find_unit_update_ne (s : GameState) (uid uid' : String) (f : Unit → Unit)
    (hne : uid' ≠ uid) (hf : ∀ u, (f u).id = u.id) :
    find_unit_by_id (update_unit s uid f) uid' = find_unit_by_id s uid' := by
  unfold find_unit_by_id
  rw [update_unit_append, find?_updateFirst_ne uid uid' f hne hf]

theorem find?_erase_of_pred_false (pr : Unit → Bool) (u : Unit) (h : pr u = false) :
    ∀ l : List Unit, (l.erase u).find? pr = l.find? pr := by
  intro l
  induction l with
  | nil => rfl
  | cons v rest ih =>
    rw [List.erase_cons]
    by_cases hv : v = u
    · rw [if_pos (by simp [hv]), hv, List.find?_cons_of_neg _ (by simp [h])]
    · rw [if_neg (by simp [hv])]
      by_cases hp : pr v = true
      · rw [List.find?_cons_of_pos _ hp, List.find?_cons_of_pos _ hp]
      · rw [List.find?_cons_of_neg _ hp, List.find?_cons_of_neg _ hp]
        exact ih

theorem find?_erase_of_id_ne (uid : String) (u : Unit) (hne : u.id ≠ uid) :
    ∀ l : List Unit, (l.erase u).find? (fun v => v.id == uid) =
      l.find? (fun v => v.id == uid) :=
  find?_erase_of_pred_false (fun v => v.id == uid) u (by simp [hne])

/-- Removing a unit whose id differs from the looked-up id does not
change the lookup. -/
theorem find_unit_death_ne (s : GameState) (u : Unit) (uid : String)
    (hne : u.id ≠ uid) :
    find_unit_by_id (handle_unit_death s u) uid = find_unit_by_id s uid := by
  by_cases h1 : u.faction = "player"
  · by_cases h2 : u ∈ s.player_squad <;>
      simp [handle_unit_death, add_log, add_effect, print_diag, create_effect, h1, h2,
        find_unit_by_id, List.find?_append, find?_erase_of_id_ne uid u hne]
  · by_cases h2 : u ∈ s.enemy_units <;>
      simp [handle_unit_death, add_log, add_effect, print_diag, create_effect, h1, h2,
        find_unit_by_id, List.find?_append, find?_erase_of_id_ne uid u hne]

theorem updateFirst_map_id (uid : String) (f : Unit → Unit)
    (hf : ∀ u, (f u).id = u.id) :
    ∀ l : List Unit, (updateFirst uid f l).map Unit.id = l.map Unit.id := by
  intro l
  induction l with
  | nil => rfl
  | cons u rest ih =>
    rw [updateFirst]
    by_cases h : u.id = uid
    · rw [if_pos h]
      simp [hf u]
    · rw [if_neg h]
      simp [ih]

theorem update_unit_map_id (s : GameState) (uid : String) (f : Unit → Unit)
    (hf : ∀ u, (f u).id = u.id) :
    ((update_unit s uid f).player_squad ++ (update_unit s uid f).enemy_units).map Unit.id =
      (s.player_squad ++ s.enemy_units).map Unit.id := by
  rw [update_unit_append, updateFirst_map_id uid f hf]

/-- With pairwise-distinct unit ids, erasing `u` from the collection that
contains it leaves no unit carrying `u`'s id. -/
theorem find?_erase_self_left (p e : List Unit) (u : Unit)
    (hnd : ((p ++ e).map Unit.id).Nodup) (hu : u ∈ p) :
    (p.erase u ++ e).find? (fun v => v.id == u.id) = none := by
  rw [List.find?_eq_none]
  intro v hv
  simp only [beq_iff_eq]
  intro hid
  rw [List.map_append] at hnd
  rcases List.mem_append.mp hv with hvp | hve
  · have hvP : v ∈ p := List.mem_of_mem_erase hvp
    have hndp : (p.map Unit.id).Nodup := ((List.nodup_append.mp hnd).1)
    have hveq : v = u :=
      List.inj_on_of_nodup_map hndp hvP hu hid
    have hpnd : p.Nodup := List.Nodup.of_map Unit.id hndp
    rw [hveq] at hvp
    have := (hpnd.mem_erase_iff).mp hvp
    exact this.1 rfl
  · have hdisj := (List.nodup_append.mp hnd).2.2
    have huid : u.id ∈ p.map Unit.id := List.mem_map_of_mem Unit.id hu
    have hvid : u.id ∈ e.map Unit.id := by
      rw [← hid]
      exact List.mem_map_of_mem Unit.id hve
    exact hdisj huid hvid

theorem find?_erase_self_right (p e : List Unit) (u : Unit)
    (hnd : ((p ++ e).map Unit.id).Nodup) (hu : u ∈ e) :
    (p ++ e.erase u).find? (fun v => v.id == u.id) = none := by
  rw [List.find?_eq_none]
  intro v hv
  simp only [beq_iff_eq]
  intro hid
  rw [List.map_append] at hnd
  rcases List.mem_append.mp hv with hvp | hve
  · have hdisj := (List.nodup_append.mp hnd).2.2
    have huid : u.id ∈ e.map Unit.id := List.mem_map_of_mem Unit.id hu
    have hvid : u.id ∈ p.map Unit.id := by
      rw [← hid]
      exact List.mem_map_of_mem Unit.id hvp
    exact hdisj hvid huid
  · have hvE : v ∈ e := List.mem_of_mem_erase hve
    have hnde : (e.map Unit.id).Nodup := ((List.nodup_append.mp hnd).2.1)
    have hveq : v = u :=
      List.inj_on_of_nodup_map hnde hvE hu hid
    have hend : e.Nodup := List.Nodup.of_map Unit.id hnde
    rw [hveq] at hve
    have := (hend.mem_erase_iff).mp hve
    exact this.1 rfl

/-- Death handling for the unit itself: with pairwise-distinct ids its id
either resolves to nothing afterwards (it was erased) or the lookup is
unchanged (its faction field did not match the collection it sat in). -/
theorem find_unit_death_self (s : GameState) (u : Unit)
    (hnodup : ((s.player_squad ++ s.enemy_units).map Unit.id).Nodup) :
    find_unit_by_id (handle_unit_death s u) u.id = none ∨
    find_unit_by_id (handle_unit_death s u) u.id = find_unit_by_id s u.id := by
  by_cases h1 : u.faction = "player"
  · by_cases h2 : u ∈ s.player_squad
    · left
      have hkey := find?_erase_self_left s.player_squad s.enemy_units u hnodup h2
      simp [handle_unit_death, add_log, add_effect, print_diag, create_effect, h1, h2,
        find_unit_by_id]
      simp only [List.find?_eq_none, List.mem_append, beq_iff_eq] at hkey
      exact ⟨fun x hx => hkey x (Or.inl hx), fun x hx => hkey x (Or.inr hx)⟩
    · right
      simp [handle_unit_death, add_log, add_effect, print_diag, create_effect, h1, h2,
        find_unit_by_id]
  · by_cases h2 : u ∈ s.enemy_units
    · left
      have hkey := find?_erase_self_right s.player_squad s.enemy_units u hnodup h2
      simp [handle_unit_death, add_log, add_effect, print_diag, create_effect, h1, h2,
        find_unit_by_id]
      simp only [List.find?_eq_none, List.mem_append, beq_iff_eq] at hkey
      exact ⟨fun x hx => hkey x (Or.inl hx), fun x hx => hkey x (Or.inr hx)⟩
    · right
      simp [handle_unit_death, add_log, add_effect, print_diag, create_effect, h1, h2,
        find_unit_by_id]

theorem find_unit_id (s : GameState) (uid : String) (u : Unit)
    (h : find_unit_by_id s uid = some u) : u.id = uid := by
  unfold find_unit_by_id at h
  have h2 := List.find?_some h
  simpa using h2

/-! ## C3: ammo accounting of `execute_attack` -/

/-- Looking up the attacker's id after the two in-place record updates of
the success path: it resolves to the doubly-updated record when attacker
and target coincide, and to the ammo-updated record otherwise. -/
theorem find_unit_double_update (s : GameState) (aid tid : String) (a : Unit)
    (f g : Unit → Unit) (hf : ∀ u, (f u).id = u.id) (hg : ∀ u, (g u).id = u.id)
    (hA : find_unit_by_id s aid = some a) :
    find_unit_by_id (update_unit (update_unit s aid f) tid g) aid =
      some (if aid = tid then g (f a) else f a) := by
  by_cases haid : aid = tid
  · rw [if_pos haid, ← haid, find_unit_update_self _ aid g hg,
      find_unit_update_self _ aid f hf, hA]
    rfl
  · rw [if_neg haid, find_unit_update_ne _ tid aid g haid hg,
      find_unit_update_self _ aid f hf, hA]
    rfl

theorem nodup_double_update (s : GameState) (aid tid : String) (f g : Unit → Unit)
    (hf : ∀ u, (f u).id = u.id) (hg : ∀ u, (g u).id = u.id)
    (hnd : ((s.player_squad ++ s.enemy_units).map Unit.id).Nodup) :
    (((update_unit (update_unit s aid f) tid g).player_squad ++
      (update_unit (update_unit s aid f) tid g).enemy_units).map Unit.id).Nodup := by
  rw [update_unit_map_id _ tid g hg, update_unit_map_id _ aid f hf]
  exact hnd

/-- Ammo observation through the death-handling suffix of the hit path
when the attacker was its own target. -/
theorem ammo_after_self_death (s2 : GameState) (msg : String) (e : Effect)
    (lt a2 : Unit) (k : Int) (aid tid : String)
    (hnd : ((s2.player_squad ++ s2.enemy_units).map Unit.id).Nodup)
    (haid : aid = tid) (hltid : lt.id = tid)
    (ha2 : find_unit_by_id s2 aid = some a2)
    (hk : a2.current_ammo = k) :
    Option.map (fun u => u.current_ammo)
        (find_unit_by_id (handle_unit_death (add_effect (add_log s2 msg) e) lt) aid) =
      some k ∨
    (aid = tid ∧
      Option.map (fun u => u.current_ammo)
        (find_unit_by_id (handle_unit_death (add_effect (add_log s2 msg) e) lt) aid) =
      none) := by
  have hlta : lt.id = aid := by rw [hltid, ← haid]
  have hnd' : (((add_effect (add_log s2 msg) e).player_squad ++
      (add_effect (add_log s2 msg) e).enemy_units).map Unit.id).Nodup := hnd
  rcases find_unit_death_self (add_effect (add_log s2 msg) e) lt hnd' with h | h
  · right
    refine ⟨haid, ?_⟩
    rw [hlta] at h
    rw [h]
    rfl
  · left
    rw [hlta] at h
    rw [h, find_unit_add_effect, find_unit_add_log, ha2]
    show some a2.current_ammo = some k
    rw [hk]

/-! ## C3: ammo accounting of `execute_attack` -/

/-- C3: when both ids resolve, ammo is positive and line of sight holds,
`execute_attack` decrements the attacker's ammo by exactly one, hit or
miss (if the attacker shot itself dead, its record is gone from the
registry); when any precondition fails, no unit collection changes. -/
theorem ig1_C3_ammo :
    (∀ (roll j : Int) (aid tid : String) (s : GameState) (a t : Unit),
      ((s.player_squad ++ s.enemy_units).map Unit.id).Nodup →
      find_unit_by_id s aid = some a →
      find_unit_by_id s tid = some t →
      0 < a.current_ammo →
      has_line_of_sight s.map a.x a.y t.x t.y = true →
      ammo_of (execute_attack roll j aid tid s) aid = some (a.current_ammo - 1) ∨
        (aid = tid ∧ ammo_of (execute_attack roll j aid tid s) aid = none)) ∧
    (∀ (roll j : Int) (aid tid : String) (s : GameState),
      ¬ attack_preconditions s aid tid →
      (execute_attack roll j aid tid s).player_squad = s.player_squad ∧
      (execute_attack roll j aid tid s).enemy_units = s.enemy_units) := by
  constructor
  · intro roll j aid tid s a t hnodup hA hT hammo hlos
    have hf1 : ∀ u : Unit,
        ({ u with current_ammo := u.current_ammo - 1 } : Unit).id = u.id := fun _ => rfl
    simp only [execute_attack, hA, hT]
    rw [if_neg (not_le.mpr hammo), if_neg (fun hc => hc hlos)]
    unfold ammo_of
    rw [find_unit_add_log]
    by_cases hroll : roll ≤ calculate_hit_chance s.map a t
    · rw [if_pos hroll]
      have ha2 := find_unit_double_update s aid tid a
        (fun u => { u with current_ammo := u.current_ammo - 1 })
        (fun u => { u with health := max 0 (u.health - max 15 (25 + Int.fdiv (a.attributes.marksmanship - 70) 5 + j)) })
        (fun _ => rfl) (fun _ => rfl) hA
      have hnd2 := nodup_double_update s aid tid
        (fun u => { u with current_ammo := u.current_ammo - 1 })
        (fun u => { u with health := max 0 (u.health - max 15 (25 + Int.fdiv (a.attributes.marksmanship - 70) 5 + j)) })
        (fun _ => rfl) (fun _ => rfl) hnodup
      split
      · -- the target's health reached zero: death handling runs
        split
        · -- the registry lookup of the target succeeded
          rename_i lt hlt
          have hltid : lt.id = tid := find_unit_id _ _ _ hlt
          by_cases haid : aid = tid
          · -- the attacker shot itself
            exact ammo_after_self_death _ _ _ lt _ _ aid tid hnd2 haid hltid ha2
              (by rw [if_pos haid])
          · -- distinct target: the erased unit carries the target's id
            left
            rw [find_unit_death_ne _ lt aid (by rw [hltid]; exact fun hc => haid hc.symm),
              find_unit_add_effect, find_unit_add_log, ha2, if_neg haid]
            rfl
        · -- lookup failed: no death handling
          left
          rw [find_unit_add_effect, find_unit_add_log, ha2]
          by_cases haid : aid = tid
          · rw [if_pos haid]
            rfl
          · rw [if_neg haid]
            rfl
      · -- target survived
        left
        rw [find_unit_add_effect, find_unit_add_log, ha2]
        by_cases haid : aid = tid
        · rw [if_pos haid]
          rfl
        · rw [if_neg haid]
          rfl
    · rw [if_neg hroll]
      left
      rw [find_unit_add_effect, find_unit_add_log,
        find_unit_update_self s aid _ hf1, hA]
      rfl
  · intro roll j aid tid s hpre
    cases hA : find_unit_by_id s aid with
    | none =>
      cases hT : find_unit_by_id s tid with
      | none => simp [execute_attack, hA, hT, log_error]
      | some t0 => simp [execute_attack, hA, hT, log_error]
    | some a0 =>
      cases hT : find_unit_by_id s tid with
      | none => simp [execute_attack, hA, hT, log_error]
      | some t0 =>
        by_cases hammo : a0.current_ammo ≤ 0
        · simp [execute_attack, hA, hT, if_pos hammo, add_log, add_effect]
        · have hlos : ¬(has_line_of_sight s.map a0.x a0.y t0.x t0.y = true) := by
            intro hl
            exact hpre ⟨a0, t0, hA, hT, by omega, hl⟩
          simp [execute_attack, hA, hT, hammo, hlos, add_log]


/-- C3 witness: a successful shot on the concrete fixture spends exactly
one round; a call whose attacker id does not resolve leaves both unit
collections untouched. -/
theorem ig1_C3_witness :
    (ammo_of (execute_attack 100 0 "a1" "b1" exC3State) "a1" =
        some (exC3Attacker.current_ammo - 1) ∨
      ("a1" = "b1" ∧ ammo_of (execute_attack 100 0 "a1" "b1" exC3State) "a1" = none)) ∧
    ((execute_attack 100 0 "zz" "b1" exC3State).player_squad = exC3State.player_squad ∧
      (execute_attack 100 0 "zz" "b1" exC3State).enemy_units = exC3State.enemy_units) := by
  constructor
  · exact (ig1_C3_ammo).1 100 0 "a1" "b1" exC3State exC3Attacker exC3Target
      (by decide) rfl rfl (by decide) (by decide)
  · apply (ig1_C3_ammo).2 100 0 "zz" "b1" exC3State
    intro h
    obtain ⟨a, t, hA, _, _, _⟩ := h
    have hz : find_unit_by_id exC3State "zz" = none := rfl
    rw [hz] at hA
    cases hA

/-! ## C8: `execute_attack` never touches action points -/

theorem updateFirst_map_idap (uid : String) (f : Unit → Unit)
    (hf : ∀ u, (f u).id = u.id ∧ (f u).ap = u.ap) :
    ∀ l : List Unit, (updateFirst uid f l).map (fun u => (u.id, u.ap)) =
      l.map (fun u => (u.id, u.ap)) := by
  intro l
  induction l with
  | nil => rfl
  | cons u rest ih =>
    rw [updateFirst]
    by_cases h : u.id = uid
    · rw [if_pos h]
      simp [(hf u).1, (hf u).2]
    · rw [if_neg h]
      simp [ih]

theorem update_unit_player_map_pair (s : GameState) (uid : String) (f : Unit → Unit)
    (hf : ∀ u, (f u).id = u.id ∧ (f u).ap = u.ap) :
    (update_unit s uid f).player_squad.map (fun u => (u.id, u.ap)) =
      s.player_squad.map (fun u => (u.id, u.ap)) := by
  unfold update_unit
  split_ifs
  · exact updateFirst_map_idap uid f hf s.player_squad
  · rfl

theorem update_unit_enemy_map_pair (s : GameState) (uid : String) (f : Unit → Unit)
    (hf : ∀ u, (f u).id = u.id ∧ (f u).ap = u.ap) :
    (update_unit s uid f).enemy_units.map (fun u => (u.id, u.ap)) =
      s.enemy_units.map (fun u => (u.id, u.ap)) := by
  unfold update_unit
  split_ifs
  · rfl
  · exact updateFirst_map_idap uid f hf s.enemy_units

theorem handle_unit_death_player_sub (s : GameState) (u : Unit) :
    List.Sublist ((handle_unit_death s u).player_squad.map (fun v => (v.id, v.ap)))
      (s.player_squad.map (fun v => (v.id, v.ap))) := by
  by_cases h1 : u.faction = "player"
  · by_cases h2 : u ∈ s.player_squad
    · simp [handle_unit_death, add_log, add_effect, print_diag, create_effect, h1, h2]
      exact List.Sublist.map _ (List.erase_sublist u s.player_squad)
    · simp [handle_unit_death, add_log, add_effect, print_diag, create_effect, h1, h2]
  · by_cases h2 : u ∈ s.enemy_units
    · simp [handle_unit_death, add_log, add_effect, print_diag, create_effect, h1, h2]
    · simp [handle_unit_death, add_log, add_effect, print_diag, create_effect, h1, h2]

theorem handle_unit_death_enemy_sub (s : GameState) (u : Unit) :
    List.Sublist ((handle_unit_death s u).enemy_units.map (fun v => (v.id, v.ap)))
      (s.enemy_units.map (fun v => (v.id, v.ap))) := by
  by_cases h1 : u.faction = "player"
  · by_cases h2 : u ∈ s.player_squad
    · simp [handle_unit_death, add_log, add_effect, print_diag, create_effect, h1, h2]
    · simp [handle_unit_death, add_log, add_effect, print_diag, create_effect, h1, h2]
  · by_cases h2 : u ∈ s.enemy_units
    · simp [handle_unit_death, add_log, add_effect, print_diag, create_effect, h1, h2]
      exact List.Sublist.map _ (List.erase_sublist u s.enemy_units)
    · simp [handle_unit_death, add_log, add_effect, print_diag, create_effect, h1, h2]

/-- C8: `execute_attack` never modifies any unit's action points: the
id-and-AP view of each unit collection after the call is a sublist of the
view before it (identical when no unit died, one entry removed when the
target died); ammo is thus its only action-economy side effect, and
charging the shoot cost is the caller's concern. -/
theorem ig1_C8_attack_ap_frame (roll j : Int) (aid tid : String) (s : GameState) :
    List.Sublist ((execute_attack roll j aid tid s).player_squad.map (fun u => (u.id, u.ap)))
      (s.player_squad.map (fun u => (u.id, u.ap))) ∧
    List.Sublist ((execute_attack roll j aid tid s).enemy_units.map (fun u => (u.id, u.ap)))
      (s.enemy_units.map (fun u => (u.id, u.ap))) := by
  cases hA : find_unit_by_id s aid with
  | none =>
    cases hT : find_unit_by_id s tid with
    | none =>
      simp only [execute_attack, hA, hT]
      exact ⟨List.Sublist.refl _, List.Sublist.refl _⟩
    | some t0 =>
      simp only [execute_attack, hA, hT]
      exact ⟨List.Sublist.refl _, List.Sublist.refl _⟩
  | some a0 =>
    cases hT : find_unit_by_id s tid with
    | none =>
      simp only [execute_attack, hA, hT]
      exact ⟨List.Sublist.refl _, List.Sublist.refl _⟩
    | some t0 =>
      simp only [execute_attack, hA, hT]
      by_cases hammo : a0.current_ammo ≤ 0
      · rw [if_pos hammo]
        exact ⟨List.Sublist.refl _, List.Sublist.refl _⟩
      · rw [if_neg hammo]
        by_cases hlos : has_line_of_sight s.map a0.x a0.y t0.x t0.y = true
        · rw [if_neg (fun hc => hc hlos)]
          by_cases hroll : roll ≤ calculate_hit_chance s.map a0 t0
          · rw [if_pos hroll]
            split
            · split
              · rename_i hdead lt hlt
                constructor
                · refine List.Sublist.trans (handle_unit_death_player_sub _ lt) ?_
                  show List.Sublist
                    ((update_unit
                      (update_unit s aid (fun u => { u with current_ammo := u.current_ammo - 1 }))
                      tid (fun u => { u with health := max 0 (u.health - max 15 (25 + Int.fdiv (a0.attributes.marksmanship - 70) 5 + j)) })).player_squad.map
                      (fun u => (u.id, u.ap)))
                    (s.player_squad.map (fun u => (u.id, u.ap)))
                  rw [update_unit_player_map_pair _ tid (fun u => { u with health := max 0 (u.health - max 15 (25 + Int.fdiv (a0.attributes.marksmanship - 70) 5 + j)) }) (fun u => ⟨rfl, rfl⟩),
                    update_unit_player_map_pair _ aid (fun u => { u with current_ammo := u.current_ammo - 1 }) (fun u => ⟨rfl, rfl⟩)]
                · refine List.Sublist.trans (handle_unit_death_enemy_sub _ lt) ?_
                  show List.Sublist
                    ((update_unit
                      (update_unit s aid (fun u => { u with current_ammo := u.current_ammo - 1 }))
                      tid (fun u => { u with health := max 0 (u.health - max 15 (25 + Int.fdiv (a0.attributes.marksmanship - 70) 5 + j)) })).enemy_units.map
                      (fun u => (u.id, u.ap)))
                    (s.enemy_units.map (fun u => (u.id, u.ap)))
                  rw [update_unit_enemy_map_pair _ tid (fun u => { u with health := max 0 (u.health - max 15 (25 + Int.fdiv (a0.attributes.marksmanship - 70) 5 + j)) }) (fun u => ⟨rfl, rfl⟩),
                    update_unit_enemy_map_pair _ aid (fun u => { u with current_ammo := u.current_ammo - 1 }) (fun u => ⟨rfl, rfl⟩)]
              · constructor
                · show List.Sublist
                    ((update_unit
                      (update_unit s aid (fun u => { u with current_ammo := u.current_ammo - 1 }))
                      tid (fun u => { u with health := max 0 (u.health - max 15 (25 + Int.fdiv (a0.attributes.marksmanship - 70) 5 + j)) })).player_squad.map
                      (fun u => (u.id, u.ap)))
                    (s.player_squad.map (fun u => (u.id, u.ap)))
                  rw [update_unit_player_map_pair _ tid (fun u => { u with health := max 0 (u.health - max 15 (25 + Int.fdiv (a0.attributes.marksmanship - 70) 5 + j)) }) (fun u => ⟨rfl, rfl⟩),
                    update_unit_player_map_pair _ aid (fun u => { u with current_ammo := u.current_ammo - 1 }) (fun u => ⟨rfl, rfl⟩)]
                · show List.Sublist
                    ((update_unit
                      (update_unit s aid (fun u => { u with current_ammo := u.current_ammo - 1 }))
                      tid (fun u => { u with health := max 0 (u.health - max 15 (25 + Int.fdiv (a0.attributes.marksmanship - 70) 5 + j)) })).enemy_units.map
                      (fun u => (u.id, u.ap)))
                    (s.enemy_units.map (fun u => (u.id, u.ap)))
                  rw [update_unit_enemy_map_pair _ tid (fun u => { u with health := max 0 (u.health - max 15 (25 + Int.fdiv (a0.attributes.marksmanship - 70) 5 + j)) }) (fun u => ⟨rfl, rfl⟩),
                    update_unit_enemy_map_pair _ aid (fun u => { u with current_ammo := u.current_ammo - 1 }) (fun u => ⟨rfl, rfl⟩)]
            · constructor
              · show List.Sublist
                  ((update_unit
                    (update_unit s aid (fun u => { u with current_ammo := u.current_ammo - 1 }))
                    tid (fun u => { u with health := max 0 (u.health - max 15 (25 + Int.fdiv (a0.attributes.marksmanship - 70) 5 + j)) })).player_squad.map
                    (fun u => (u.id, u.ap)))
                  (s.player_squad.map (fun u => (u.id, u.ap)))
                rw [update_unit_player_map_pair _ tid (fun u => { u with health := max 0 (u.health - max 15 (25 + Int.fdiv (a0.attributes.marksmanship - 70) 5 + j)) }) (fun u => ⟨rfl, rfl⟩),
                  update_unit_player_map_pair _ aid (fun u => { u with current_ammo := u.current_ammo - 1 }) (fun u => ⟨rfl, rfl⟩)]
              · show List.Sublist
                  ((update_unit
                    (update_unit s aid (fun u => { u with current_ammo := u.current_ammo - 1 }))
                    tid (fun u => { u with health := max 0 (u.health - max 15 (25 + Int.fdiv (a0.attributes.marksmanship - 70) 5 + j)) })).enemy_units.map
                    (fun u => (u.id, u.ap)))
                  (s.enemy_units.map (fun u => (u.id, u.ap)))
                rw [update_unit_enemy_map_pair _ tid (fun u => { u with health := max 0 (u.health - max 15 (25 + Int.fdiv (a0.attributes.marksmanship - 70) 5 + j)) }) (fun u => ⟨rfl, rfl⟩),
                  update_unit_enemy_map_pair _ aid (fun u => { u with current_ammo := u.current_ammo - 1 }) (fun u => ⟨rfl, rfl⟩)]
          · rw [if_neg hroll]
            constructor
            · show List.Sublist
                ((update_unit s aid (fun u => { u with current_ammo := u.current_ammo - 1 })).player_squad.map
                  (fun u => (u.id, u.ap)))
                (s.player_squad.map (fun u => (u.id, u.ap)))
              rw [update_unit_player_map_pair _ aid (fun u => { u with current_ammo := u.current_ammo - 1 }) (fun u => ⟨rfl, rfl⟩)]
            · show List.Sublist
                ((update_unit s aid (fun u => { u with current_ammo := u.current_ammo - 1 })).enemy_units.map
                  (fun u => (u.id, u.ap)))
                (s.enemy_units.map (fun u => (u.id, u.ap)))
              rw [update_unit_enemy_map_pair _ aid (fun u => { u with current_ammo := u.current_ammo - 1 }) (fun u => ⟨rfl, rfl⟩)]
        · rw [if_pos hlos]
          exact ⟨List.Sublist.refl _, List.Sublist.refl _⟩

/-! ## C7: the AI attack layer -/

theorem ai_pick_ge (m : GameMap) (unit : Unit) :
    ∀ (l : List Unit) (bt : Option Unit) (bs : ℚ),
      bs ≤ (ai_pick_target m unit l (bt, bs)).2 := by
  intro l
  induction l with
  | nil => intro bt bs; exact le_refl _
  | cons p rest ih =>
    intro bt bs
    rw [ai_pick_target]
    by_cases h1 : p.health ≤ 0
    · rw [if_pos h1]; exact ih bt bs
    · rw [if_neg h1]
      by_cases h2 : has_line_of_sight m unit.x unit.y p.x p.y = true
      · rw [if_pos h2]
        by_cases h3 : bs < ai_score m unit p
        · rw [if_pos h3]
          exact (le_of_lt h3).trans (ih (some p) (ai_score m unit p))
        · rw [if_neg h3]; exact ih bt bs
      · rw [if_neg h2]; exact ih bt bs

theorem ai_pick_gt_iff (m : GameMap) (unit : Unit) (c : ℚ) :
    ∀ (l : List Unit) (bt : Option Unit) (bs : ℚ),
      c < (ai_pick_target m unit l (bt, bs)).2 ↔
        (c < bs ∨ ∃ p, p ∈ l ∧ 0 < p.health ∧
          has_line_of_sight m unit.x unit.y p.x p.y = true ∧ c < ai_score m unit p) := by
  intro l
  induction l with
  | nil =>
    intro bt bs
    rw [ai_pick_target]
    simp
  | cons p rest ih =>
    intro bt bs
    rw [ai_pick_target]
    by_cases h1 : p.health ≤ 0
    · rw [if_pos h1, ih]
      constructor
      · rintro (h | ⟨q, hq, hh, hl, hs⟩)
        · exact Or.inl h
        · exact Or.inr ⟨q, List.mem_cons_of_mem p hq, hh, hl, hs⟩
      · rintro (h | ⟨q, hq, hh, hl, hs⟩)
        · exact Or.inl h
        · rcases List.mem_cons.mp hq with rfl | hq'
          · exact absurd hh (not_lt.mpr h1)
          · exact Or.inr ⟨q, hq', hh, hl, hs⟩
    · rw [if_neg h1]
      by_cases h2 : has_line_of_sight m unit.x unit.y p.x p.y = true
      · rw [if_pos h2]
        by_cases h3 : bs < ai_score m unit p
        · rw [if_pos h3, ih]
          constructor
          · rintro (h | ⟨q, hq, hh, hl, hs⟩)
            · exact Or.inr ⟨p, List.mem_cons_self p rest, not_le.mp h1, h2, h⟩
            · exact Or.inr ⟨q, List.mem_cons_of_mem p hq, hh, hl, hs⟩
          · rintro (h | ⟨q, hq, hh, hl, hs⟩)
            · exact Or.inl (lt_trans h h3)
            · rcases List.mem_cons.mp hq with rfl | hq'
              · exact Or.inl hs
              · exact Or.inr ⟨q, hq', hh, hl, hs⟩
        · rw [if_neg h3, ih]
          constructor
          · rintro (h | ⟨q, hq, hh, hl, hs⟩)
            · exact Or.inl h
            · exact Or.inr ⟨q, List.mem_cons_of_mem p hq, hh, hl, hs⟩
          · rintro (h | ⟨q, hq, hh, hl, hs⟩)
            · exact Or.inl h
            · rcases List.mem_cons.mp hq with rfl | hq'
              · exact Or.inl (lt_of_lt_of_le hs (not_lt.mp h3))
              · exact Or.inr ⟨q, hq', hh, hl, hs⟩
      · rw [if_neg h2]
        rw [ih]
        constructor
        · rintro (h | ⟨q, hq, hh, hl, hs⟩)
          · exact Or.inl h
          · exact Or.inr ⟨q, List.mem_cons_of_mem p hq, hh, hl, hs⟩
        · rintro (h | ⟨q, hq, hh, hl, hs⟩)
          · exact Or.inl h
          · rcases List.mem_cons.mp hq with rfl | hq'
            · exact absurd hl h2
            · exact Or.inr ⟨q, hq', hh, hl, hs⟩

theorem ai_pick_init (m : GameMap) (unit : Unit) :
    ∀ (l : List Unit) (bt : Option Unit) (bs : ℚ),
      ((ai_pick_target m unit l (bt, bs)).1 = bt ∧
        (ai_pick_target m unit l (bt, bs)).2 = bs) ∨
        ((ai_pick_target m unit l (bt, bs)).1).isSome := by
  intro l
  induction l with
  | nil => intro bt bs; exact Or.inl ⟨rfl, rfl⟩
  | cons p rest ih =>
    intro bt bs
    rw [ai_pick_target]
    by_cases h1 : p.health ≤ 0
    · rw [if_pos h1]; exact ih bt bs
    · rw [if_neg h1]
      by_cases h2 : has_line_of_sight m unit.x unit.y p.x p.y = true
      · rw [if_pos h2]
        by_cases h3 : bs < ai_score m unit p
        · rw [if_pos h3]
          rcases ih (some p) (ai_score m unit p) with ⟨hfst, _⟩ | hsome
          · right; rw [hfst]; rfl
          · right; exact hsome
        · rw [if_neg h3]; exact ih bt bs
      · rw [if_neg h2]; exact ih bt bs

/-- The AI attack layer commits an attack exactly when the unit can pay
the shoot cost and some living, visible player target scores above 40. -/
theorem ai_attack_commit_iff (roll j : Int) (unit : Unit) (s : GameState) :
    (ai_try_attack_visible_enemy roll j unit s).1 = true ↔
      (Cfg.AP_COST_SHOOT ≤ unit.ap ∧ ∃ p, p ∈ s.player_squad ∧ 0 < p.health ∧
        has_line_of_sight s.map unit.x unit.y p.x p.y = true ∧
        40 < ai_score s.map unit p) := by
  unfold ai_try_attack_visible_enemy
  by_cases hap : unit.ap < Cfg.AP_COST_SHOOT
  · rw [if_pos hap]
    simp [not_le.mpr hap]
  · rw [if_neg hap]
    have hap' := not_lt.mp hap
    rcases hpick : ai_pick_target s.map unit s.player_squad (none, 0) with ⟨bt, bs⟩
    have hgt := ai_pick_gt_iff s.map unit 40 s.player_squad none 0
    rw [hpick] at hgt
    have hgt' : 40 < bs ↔ ∃ p, p ∈ s.player_squad ∧ 0 < p.health ∧
        has_line_of_sight s.map unit.x unit.y p.x p.y = true ∧
        40 < ai_score s.map unit p := by
      rw [show ((bt, bs) : Option Unit × ℚ).2 = bs from rfl] at hgt
      rw [hgt]
      constructor
      · rintro (h | h)
        · norm_num at h
        · exact h
      · exact fun h => Or.inr h
    have hinit := ai_pick_init s.map unit s.player_squad none 0
    rw [hpick] at hinit
    cases bt with
    | none =>
      dsimp only
      constructor
      · intro h
        exact absurd h (by simp)
      · rintro ⟨_, hex⟩
        have h40 : 40 < bs := hgt'.mpr hex
        rcases hinit with ⟨_, hbs0⟩ | hsome
        · have hbs0' : bs = 0 := hbs0
          rw [hbs0'] at h40
          norm_num at h40
        · simp at hsome
    | some t =>
      dsimp only
      by_cases hbs : 40 < bs
      · rw [if_pos hbs]
        exact ⟨fun _ => ⟨hap', hgt'.mp hbs⟩, fun _ => rfl⟩
      · rw [if_neg hbs]
        constructor
        · intro h
          exact absurd h (by simp)
        · rintro ⟨_, hex⟩
          exact absurd (hgt'.mpr hex) hbs

/-- `execute_attack` leaves the AP of any unit other than the target
findable and unchanged (the target may be erased by death handling). -/
theorem execute_attack_find_ap (roll j : Int) (aid tid uid : String) (s : GameState)
    (u : Unit) (hfind : find_unit_by_id s uid = some u) (hne : uid ≠ tid) :
    ∃ u', find_unit_by_id (execute_attack roll j aid tid s) uid = some u' ∧
      u'.ap = u.ap := by
  cases hA : find_unit_by_id s aid with
  | none =>
    cases hT : find_unit_by_id s tid with
    | none =>
      simp only [execute_attack, hA, hT]
      exact ⟨u, hfind, rfl⟩
    | some t0 =>
      simp only [execute_attack, hA, hT]
      exact ⟨u, hfind, rfl⟩
  | some a0 =>
    cases hT : find_unit_by_id s tid with
    | none =>
      simp only [execute_attack, hA, hT]
      exact ⟨u, hfind, rfl⟩
    | some t0 =>
      simp only [execute_attack, hA, hT]
      by_cases hammo : a0.current_ammo ≤ 0
      · rw [if_pos hammo]
        exact ⟨u, hfind, rfl⟩
      · rw [if_neg hammo]
        by_cases hlos : has_line_of_sight s.map a0.x a0.y t0.x t0.y = true
        · rw [if_neg (fun hc => hc hlos)]
          have h1 : ∃ u1, find_unit_by_id
              (update_unit s aid (fun v => { v with current_ammo := v.current_ammo - 1 }))
              uid = some u1 ∧ u1.ap = u.ap := by
            by_cases huid : uid = aid
            · rw [huid] at hfind ⊢
              rw [find_unit_update_self s aid (fun v => { v with current_ammo := v.current_ammo - 1 }) (fun _ => rfl), hfind]
              exact ⟨_, rfl, rfl⟩
            · rw [find_unit_update_ne s aid uid (fun v => { v with current_ammo := v.current_ammo - 1 }) huid (fun _ => rfl), hfind]
              exact ⟨u, rfl, rfl⟩
          obtain ⟨u1, hu1, hu1ap⟩ := h1
          by_cases hroll : roll ≤ calculate_hit_chance s.map a0 t0
          · rw [if_pos hroll]
            have h2 : find_unit_by_id
                (update_unit
                  (update_unit s aid (fun v => { v with current_ammo := v.current_ammo - 1 }))
                  tid (fun v => { v with health := max 0 (v.health - max 15 (25 + Int.fdiv (a0.attributes.marksmanship - 70) 5 + j)) }))
                uid = some u1 := by
              rw [find_unit_update_ne _ tid uid (fun v => { v with health := max 0 (v.health - max 15 (25 + Int.fdiv (a0.attributes.marksmanship - 70) 5 + j)) }) hne (fun _ => rfl), hu1]
            split
            · split
              · rename_i hdead lt hlt
                have hltid : lt.id = tid := find_unit_id _ _ _ hlt
                refine ⟨u1, ?_, hu1ap⟩
                rw [find_unit_add_log,
                  find_unit_death_ne _ lt uid (by rw [hltid]; exact fun hc => hne hc.symm),
                  find_unit_add_effect, find_unit_add_log, h2]
              · refine ⟨u1, ?_, hu1ap⟩
                rw [find_unit_add_log, find_unit_add_effect, find_unit_add_log, h2]
            · refine ⟨u1, ?_, hu1ap⟩
              rw [find_unit_add_log, find_unit_add_effect, find_unit_add_log, h2]
          · rw [if_neg hroll]
            refine ⟨u1, ?_, hu1ap⟩
            rw [find_unit_add_log, find_unit_add_effect, find_unit_add_log, hu1]
        · rw [if_pos hlos]
          exact ⟨u, hfind, rfl⟩

/-- When the attack layer commits with best target `p`, exactly the shoot
cost is deducted from the acting unit's AP. -/
theorem ai_attack_ap_spent (roll j : Int) (unit : Unit) (s : GameState) (p : Unit)
    (hpick : ai_pick_target s.map unit s.player_squad (none, 0) =
      (some p, ai_score s.map unit p))
    (hsc40 : (40 : ℚ) < ai_score s.map unit p)
    (hap : Cfg.AP_COST_SHOOT ≤ unit.ap)
    (hfind : find_unit_by_id s unit.id = some unit)
    (hne : unit.id ≠ p.id) :
    ap_of (ai_try_attack_visible_enemy roll j unit s).2 unit.id =
      some (unit.ap - Cfg.AP_COST_SHOOT) := by
  unfold ai_try_attack_visible_enemy
  rw [if_neg (not_lt.mpr hap), hpick]
  dsimp only
  rw [if_pos hsc40]
  dsimp only
  unfold ap_of
  obtain ⟨u', hu', hu'ap⟩ := execute_attack_find_ap roll j unit.id p.id unit.id s unit hfind hne
  rw [find_unit_update_self _ unit.id (fun v => { v with ap := v.ap - Cfg.AP_COST_SHOOT }) (fun _ => rfl), hu']
  simp [hu'ap]

/-- C7: the AI attack layer scores each living, visible player unit as
hit chance plus 30 times the missing-health fraction and commits exactly
when the best such score exceeds 40 and the shoot cost is affordable; in
the one-enemy / one-full-health-player scenario at Euclidean distance 2
with no cover (nominal marksmanship 70 / agility 60), the attack layer is
selected and `ai_take_turn` consumes exactly the shoot cost. -/
theorem ig1_C7_ai_attack :
    (∀ (roll j : Int) (unit : Unit) (s : GameState),
      (ai_try_attack_visible_enemy roll j unit s).1 = true ↔
        (Cfg.AP_COST_SHOOT ≤ unit.ap ∧ ∃ p, p ∈ s.player_squad ∧ 0 < p.health ∧
          has_line_of_sight s.map unit.x unit.y p.x p.y = true ∧
          40 < ai_score s.map unit p)) ∧
    (∀ (roll j roll2 j2 : Int) (unit p : Unit) (s : GameState),
      s.player_squad = [p] →
      p.health = p.max_health → 0 < p.max_health →
      has_line_of_sight s.map unit.x unit.y p.x p.y = true →
      (unit.x - p.x).natAbs ^ 2 + (unit.y - p.y).natAbs ^ 2 = 4 →
      s.map.cover p.y.toNat p.x.toNat = 0 →
      unit.attributes.marksmanship = 70 →
      p.attributes.agility = 60 →
      Cfg.AP_COST_SHOOT ≤ unit.ap →
      find_unit_by_id s unit.id = some unit →
      unit.id ≠ p.id →
      (ai_try_attack_visible_enemy roll j unit s).1 = true ∧
      ap_of (ai_take_turn roll j roll2 j2 unit s) unit.id =
        some (unit.ap - Cfg.AP_COST_SHOOT)) := by
  constructor
  · exact ai_attack_commit_iff
  · intro roll j roll2 j2 unit p s hsquad hfull hpos hlos hdist hcover hmarks hagi hap
      hfind hne
    have hhc : calculate_hit_chance s.map unit p = 69 := by
      simp only [calculate_hit_chance, distance_penalty]
      rw [hmarks, hagi, hdist, hcover]
      decide
    have hsc : ai_score s.map unit p = 69 := by
      unfold ai_score
      rw [hhc, hfull]
      norm_num
    have hphp : 0 < p.health := by rw [hfull]; exact hpos
    have hmem : p ∈ s.player_squad := by
      rw [hsquad]
      exact List.mem_singleton.mpr rfl
    have h40 : (40 : ℚ) < ai_score s.map unit p := by
      rw [hsc]
      norm_num
    have hcommit : (ai_try_attack_visible_enemy roll j unit s).1 = true :=
      (ai_attack_commit_iff roll j unit s).mpr ⟨hap, p, hmem, hphp, hlos, h40⟩
    refine ⟨hcommit, ?_⟩
    have hpick : ai_pick_target s.map unit s.player_squad (none, 0) =
        (some p, ai_score s.map unit p) := by
      rw [hsquad, ai_pick_target, if_neg (not_le.mpr hphp), if_pos hlos,
        if_pos (by rw [hsc]; norm_num : (0 : ℚ) < ai_score s.map unit p), ai_pick_target]
    have hcommit0 : (ai_try_attack_visible_enemy roll j unit
        (print_diag s ("[AI] " ++ unit.name ++ " taking turn (AP: " ++
          toString unit.ap ++ ")"))).1 = true :=
      (ai_attack_commit_iff roll j unit _).mpr ⟨hap, p, hmem, hphp, hlos, h40⟩
    simp only [ai_take_turn]
    rw [if_pos hcommit0]
    exact ai_attack_ap_spent roll j unit
      (print_diag s ("[AI] " ++ unit.name ++ " taking turn (AP: " ++
        toString unit.ap ++ ")")) p hpick h40 hap hfind hne

/-- C7 witness: the concrete distance-2, cover-0 scenario commits the
attack and spends exactly the shoot cost. -/
theorem ig1_C7_witness :
    (ai_try_attack_visible_enemy 100 0 exC7Enemy exC7State).1 = true ∧
    ap_of (ai_take_turn 100 0 100 0 exC7Enemy exC7State) exC7Enemy.id =
      some (exC7Enemy.ap - Cfg.AP_COST_SHOOT) :=
  (ig1_C7_ai_attack).2 100 0 100 0 exC7Enemy exC7Player exC7State rfl rfl (by decide)
    (by decide) (by decide) rfl rfl rfl (by decide) rfl (by decide)

/-! ## C6: invalid or occupied move destinations -/

/-- C6 counterexample: clicking an out-of-bounds destination with an
active, well-funded unit is a SILENT no-op: the returned state is the
input state, whose combat log, diagnostics and error log are all empty —
the attempted move is not applied, but no outcome is reported on any
channel, refuting the claim's reporting conjunct.  (`can_reach_position`
confirms the move failed for invalidity, not for AP.) -/
theorem ig1_C6_counterexample :
    handle_tile_click 50 0 5 5 exC6State = exC6State ∧
    exC6State.combat_log = [] ∧
    exC6State.diagnostics = [] ∧
    exC6State.error_log = [] ∧
    is_valid_position exC6State.map 5 5 = false ∧
    is_position_occupied exC6State 5 5 = false ∧
    exC6State.active_unit_id = some "p1" ∧
    can_reach_position exC6Active 5 5 = true := by
  refine ⟨rfl, rfl, rfl, rfl, ?_, ?_, rfl, ?_⟩ <;> decide

/-- C6 (amended): with an active unit and a destination that is invalid
or occupied, the attempted move is not applied (both unit collections are
unchanged); an occupied destination is reported on the diagnostic
channel, while an invalid unoccupied destination is silently ignored —
the whole state is returned untouched, with nothing reported. -/
theorem ig1_C6_invalid_move (roll j : Int) (x y : Int) (s : GameState)
    (active_id : String) (active : Unit)
    (hclick : s.player_squad.find? (fun u => u.x == x && u.y == y) = none)
    (hactive : s.active_unit_id = some active_id)
    (hfind : find_unit_by_id s active_id = some active)
    (hbad : ¬(is_valid_position s.map x y = true ∧ is_position_occupied s x y = false)) :
    (handle_tile_click roll j x y s).player_squad = s.player_squad ∧
    (handle_tile_click roll j x y s).enemy_units = s.enemy_units ∧
    (is_position_occupied s x y = true →
      (handle_tile_click roll j x y s).diagnostics =
        s.diagnostics ++ ["[INPUT] Position (" ++ toString x ++ ", " ++ toString y ++
          ") is occupied"]) ∧
    (is_position_occupied s x y = false → handle_tile_click roll j x y s = s) := by
  unfold handle_tile_click
  simp only [hclick, hactive, hfind]
  by_cases hocc : is_position_occupied s x y = true
  · have hc1 : ¬((is_valid_position s.map x y && !(is_position_occupied s x y)) = true) := by
      rw [hocc]
      simp
    rw [if_neg hc1, if_pos hocc]
    refine ⟨rfl, rfl, fun _ => rfl, ?_⟩
    intro h
    rw [hocc] at h
    cases h
  · have hocc' : is_position_occupied s x y = false := by
      cases hv : is_position_occupied s x y
      · rfl
      · exact absurd hv hocc
    have hval : is_valid_position s.map x y = false := by
      cases hv : is_valid_position s.map x y
      · rfl
      · exact absurd ⟨hv, hocc'⟩ hbad
    have hc1 : ¬((is_valid_position s.map x y && !(is_position_occupied s x y)) = true) := by
      rw [hval]
      simp
    rw [if_neg hc1, if_neg hocc]
    exact ⟨rfl, rfl, fun h => absurd h hocc, fun _ => rfl⟩

/-- C6 witness: clicking the occupied tile (1,0): no unit moves and the
occupied diagnostic is printed. -/
theorem ig1_C6_witness :
    (handle_tile_click 50 0 1 0 exC6State).player_squad = exC6State.player_squad ∧
    (handle_tile_click 50 0 1 0 exC6State).diagnostics =
      exC6State.diagnostics ++ ["[INPUT] Position (1, 0) is occupied"] := by
  have h := ig1_C6_invalid_move 50 0 1 0 exC6State "p1" exC6Active rfl rfl rfl (by decide)
  refine ⟨h.1, ?_⟩
  have h2 := h.2.2.1 (by decide)
  rw [h2]
  rfl

end IG1
